import Mathlib

/-!
Verification of the Texas Hold'em engine (purinung/Poker).

This file gives a shallow embedding, in Lean 4, of the core game logic of
the repository — `src/lib/PlayerActions.ts`, `src/lib/GameEngine.ts`,
`src/lib/Deck.ts`, `src/lib/PokerGame.ts` and
`src/lib/MonteCarloSimulation.ts` — and proves or refutes the frozen
claims about that code.

Conventions of the embedding:
* JS numbers holding chip amounts / bets / pot sizes become `Int`
  (the code only ever assigns integers to them; `Int` keeps the JS
  behaviour on subtraction, which may go negative, unlike `Nat`).
* Array indices become `Nat`.
* In-place mutation of a `Player` found by `Array.prototype.find`
  becomes `updateFirst`, which rewrites the first list entry whose
  `id` matches (exactly the object `find` returns).
* Code that throws becomes `Except`/`Option`; code returning
  `undefined`/`null` becomes `Option`.
* `Array.prototype.sort` (stable in JS) becomes `List.insertionSort`
  (also stable) with the comparator's order.
* Non-deterministic shuffles become explicit `List Card` /
  shuffle-oracle parameters.
-/

/-! ## Data model (src/common/enum.ts, src/common/interface.ts) -/

inductive Suit where
  | SPADES | HEARTS | DIAMONDS | CLUBS
deriving DecidableEq, Repr, Fintype

inductive Rank where
  | R2 | R3 | R4 | R5 | R6 | R7 | R8 | R9 | R10 | J | Q | K | A
deriving DecidableEq, Repr, Fintype

structure Card where
  rank : Rank
  suit : Suit
deriving DecidableEq, Repr, Fintype

inductive Role where
  | DEALER | SMALL_BLIND | BIG_BLIND | VIEWER | NO_ROLE
deriving DecidableEq, Repr

inductive Round where
  | PreRoundBetting | PREFLOP | FLOP | TURN | RIVER | CARD_REVEAL | SHOWDOWN
deriving DecidableEq, Repr

inductive HandRank where
  | HIGHCARD | ONEPAIR | TWOPAIR | THREEOFAKIND | STRAIGHT
  | FLUSH | FULLHOUSE | FOUROFKIND | STRAIGHTFLUSH | ROYALFLUSH
deriving DecidableEq, Repr

inductive PlayerAction where
  | Fold | Check | Call | Raise | AllIn
deriving DecidableEq, Repr

structure Player where
  id : String
  name : String
  hand : List Card
  chips : Int
  currentBet : Int
  totalBet : Int
  isFolded : Bool
  role : Role
  hasActed : Bool
  isAllIn : Bool
deriving DecidableEq, Repr

structure GameState where
  players : List Player
  deck : List Card
  pot : Int
  communityCards : List Card
  currentPlayerIndex : Nat
  round : Round
  bigBlind : Int
  smallBlind : Int
  minBet : Int
  lastRaise : Int
  message : String
  winners : List Player
  tournamentWinner : Option Player
  gameEnded : Bool
deriving DecidableEq, Repr

structure EvaluatedHand where
  rank : HandRank
  tiebreaker : List Nat
deriving DecidableEq, Repr

structure SHOWDOWNResult where
  player : Player
  evaluation : EvaluatedHand
deriving DecidableEq, Repr

structure GameAction where
  playerId : String
  type : PlayerAction
  amount : Option Int
deriving DecidableEq, Repr

structure ActionValidation where
  isValid : Bool
  reason : Option String
  allowedActions : List PlayerAction
  minRaise : Option Int
  callAmount : Option Int
deriving DecidableEq, Repr

/-- `Pot`: the `eligiblePlayers` field holds the snapshots of the player
objects (in the source they are references into `gameState.players`;
distribution writes chips back through the `id`). -/
structure Pot where
  id : String
  amount : Int
  eligiblePlayers : List Player
  isMainPot : Bool
  maxContribution : Int
deriving DecidableEq, Repr

/-- `PotDistribution`: the source stores the mutated `Player` object;
the embedding keeps its identity (`playerId`) instead. -/
structure PotDistribution where
  playerId : String
  amount : Int
  potId : String
  rank : Option HandRank
deriving DecidableEq, Repr

structure PotResult where
  distributions : List PotDistribution
  totalDistributed : Int
  message : String
deriving DecidableEq, Repr

/-- `ALL_CARDS` from `src/common/interface.ts`: suits in declaration
order, each suit paired with every rank in declaration order. -/
def allSuits : List Suit := [.SPADES, .HEARTS, .DIAMONDS, .CLUBS]

def allRanks : List Rank :=
  [.R2, .R3, .R4, .R5, .R6, .R7, .R8, .R9, .R10, .J, .Q, .K, .A]

def ALL_CARDS : List Card :=
  allSuits.flatMap (fun suit => allRanks.map (fun rank => ⟨rank, suit⟩))

deriving instance DecidableEq for Except

/-! ## Generic helpers for the mutation patterns of the source -/

/-- Rewrites the first player whose `id` matches (`p.find(...)`
followed by in-place mutation of the found object). -/
def updateFirst (ps : List Player) (pid : String) (f : Player → Player) :
    List Player :=
  match ps with
  | [] => []
  | p :: rest =>
    if p.id == pid then f p :: rest else p :: updateFirst rest pid f

/-- Rewrites the first player satisfying a predicate. -/
def updateFirstP (ps : List Player) (pred : Player → Bool)
    (f : Player → Player) : List Player :=
  match ps with
  | [] => []
  | p :: rest =>
    if pred p then f p :: rest else p :: updateFirstP rest pred f

def findPlayer (gs : GameState) (pid : String) : Option Player :=
  gs.players.find? (fun p => p.id == pid)

def chipsSum (ps : List Player) : Int := (ps.map Player.chips).sum

def currentBetSum (ps : List Player) : Int := (ps.map Player.currentBet).sum

/-- The quantity named by the spec's invariant:
`pot + Σ player.chips + Σ player.currentBet`. -/
def specInvariantQty (gs : GameState) : Int :=
  gs.pot + chipsSum gs.players + currentBetSum gs.players

/-- The quantity the code actually conserves: `pot + Σ player.chips`
(a bet moves chips → pot immediately; `currentBet` is only a
per-street tally that `collectBets` later zeroes without touching
the pot). -/
def potPlusChips (gs : GameState) : Int := gs.pot + chipsSum gs.players

/-! ## PlayerActions (src/lib/PlayerActions.ts) -/

/-- `PlayerActions.getHighestCurrentBet`:
`Math.max(...players.map(p => p.isFolded ? 0 : p.currentBet), 0)`. -/
def getHighestCurrentBet (gs : GameState) : Int :=
  (gs.players.map (fun p => if p.isFolded then 0 else p.currentBet)).foldl
    max 0

/-- `PlayerActions.getMinimumRaise`. -/
def getMinimumRaise (gs : GameState) : Int :=
  getHighestCurrentBet gs + gs.lastRaise

/-- `PlayerActions.getAllowedActions`. -/
def getAllowedActions (gs : GameState) (player : Player) :
    List PlayerAction :=
  if player.role == .VIEWER then []
  else
    if player.isAllIn then [.Fold, .Check]
    else if player.chips == 0 then [.Fold]
    else
      let highestBet := getHighestCurrentBet gs
      let callAmount := max 0 (highestBet - player.currentBet)
      let base : List PlayerAction :=
        if callAmount == 0 then [.Fold, .Check] else [.Fold, .Call]
      let base := base ++ [.AllIn]
      let minRaise := getMinimumRaise gs
      if player.chips + player.currentBet ≥ minRaise then
        base ++ [.Raise]
      else base

/-- `PlayerActions.validateFold`. -/
def validateFold (allowed : List PlayerAction) (callAmount minRaise : Int) :
    ActionValidation :=
  ⟨allowed.contains .Fold, none, allowed, some minRaise, some callAmount⟩

/-- `PlayerActions.validateCheck`. -/
def validateCheck (callAmount : Int) (allowed : List PlayerAction)
    (minRaise : Int) : ActionValidation :=
  if callAmount > 0 then
    ⟨false, some "Cannot check when there's a bet to call", allowed,
      some minRaise, some callAmount⟩
  else
    ⟨allowed.contains .Check, none, allowed, some minRaise, some callAmount⟩

/-- `PlayerActions.validateCall`. -/
def validateCall (callAmount : Int) (allowed : List PlayerAction)
    (minRaise : Int) : ActionValidation :=
  if callAmount == 0 then
    ⟨false, some "No bet to call", allowed, some minRaise, some callAmount⟩
  else
    ⟨allowed.contains .Call, none, allowed, some minRaise, some callAmount⟩

/-- `PlayerActions.validateRaise`.  `!action.amount` is true for a
missing amount and for `0`. -/
def validateRaise (a : GameAction) (player : Player)
    (allowed : List PlayerAction) (callAmount minRaise : Int) :
    ActionValidation :=
  if !allowed.contains .Raise then
    ⟨false, some "Raising not allowed", allowed, some minRaise,
      some callAmount⟩
  else
    match a.amount with
    | none =>
      ⟨false, some ("Raise must be at least " ++ toString minRaise),
        allowed, some minRaise, some callAmount⟩
    | some amt =>
      if amt == 0 || amt < minRaise then
        ⟨false, some ("Raise must be at least " ++ toString minRaise),
          allowed, some minRaise, some callAmount⟩
      else if amt > player.chips + player.currentBet then
        ⟨false, some "Raise amount exceeds available chips", allowed,
          some minRaise, some callAmount⟩
      else ⟨true, none, allowed, some minRaise, some callAmount⟩

/-- `PlayerActions.validateAllIn`. -/
def validateAllIn (allowed : List PlayerAction) (callAmount minRaise : Int) :
    ActionValidation :=
  ⟨allowed.contains .AllIn, none, allowed, some minRaise, some callAmount⟩

/-- `PlayerActions.validatePlayerAction`. -/
def validatePlayerAction (gs : GameState) (a : GameAction) : ActionValidation :=
  match findPlayer gs a.playerId with
  | none => ⟨false, some "Player not found", [], none, none⟩
  | some player =>
    if player.role == .VIEWER then
      ⟨false, some "Viewers cannot perform game actions", [], none, none⟩
    else if player.isFolded then
      ⟨false, some "Player has already folded", [], none, none⟩
    else if player.isAllIn then
      match a.type with
      | .Fold => ⟨true, none, [.Fold, .Check], some 0, some 0⟩
      | .Check => ⟨true, none, [.Fold, .Check], some 0, some 0⟩
      | _ =>
        ⟨false, some "All-in players can only fold or check",
          [.Fold, .Check], none, none⟩
    else if player.chips == 0 then
      ⟨false, some "Player has no chips", [], none, none⟩
    else
      let highestBet := getHighestCurrentBet gs
      let callAmount := max 0 (highestBet - player.currentBet)
      let minRaise := getMinimumRaise gs
      let allowed := getAllowedActions gs player
      match a.type with
      | .Fold => validateFold allowed callAmount minRaise
      | .Check => validateCheck callAmount allowed minRaise
      | .Call => validateCall callAmount allowed minRaise
      | .Raise => validateRaise a player allowed callAmount minRaise
      | .AllIn => validateAllIn allowed callAmount minRaise

/-- `PlayerActions.processFold`. -/
def processFold (gs : GameState) (pid : String) : GameState :=
  match findPlayer gs pid with
  | none => gs
  | some player =>
    { gs with
      players :=
        updateFirst gs.players pid
          (fun p => { p with isFolded := true, hasActed := true })
      message := player.name ++ " folds" }

/-- `PlayerActions.processCheck`. -/
def processCheck (gs : GameState) (pid : String) : GameState :=
  match findPlayer gs pid with
  | none => gs
  | some player =>
    { gs with
      players :=
        updateFirst gs.players pid (fun p => { p with hasActed := true })
      message := player.name ++ " checks" }

/-- `PlayerActions.processCall`.  The call amount moves chips → pot and
is tallied into `currentBet`/`totalBet` at the same time. -/
def processCall (gs : GameState) (pid : String) : GameState :=
  match findPlayer gs pid with
  | none => gs
  | some player =>
    let highestBet := getHighestCurrentBet gs
    let callAmount := max 0 (highestBet - player.currentBet)
    let actualCall := min callAmount player.chips
    let newChips := player.chips - actualCall
    { gs with
      players :=
        updateFirst gs.players pid
          (fun p =>
            { p with
              chips := p.chips - actualCall
              currentBet := p.currentBet + actualCall
              totalBet := p.totalBet + actualCall
              hasActed := true
              isAllIn := if p.chips - actualCall == 0 then true else p.isAllIn })
      pot := gs.pot + actualCall
      message :=
        if newChips == 0 then player.name ++ " calls and is all-in"
        else player.name ++ " calls " ++ toString actualCall }

/-- The `hasActed := false` reopening applied to one player by
`processRaise` / `processAllIn` (the body of their `forEach` over
every other non-folded, non-all-in player). -/
def reopenF (pid : String) (p : Player) : Player :=
  if p.id != pid && !p.isFolded && !p.isAllIn then
    { p with hasActed := false }
  else p

/-- The whole reopening pass. -/
def reopenOthers (ps : List Player) (pid : String) : List Player :=
  ps.map (reopenF pid)

/-- `PlayerActions.processRaise`.  Returns the state unchanged when
`!action.amount` (missing or `0`). -/
def processRaise (gs : GameState) (a : GameAction) : GameState :=
  match findPlayer gs a.playerId with
  | none => gs
  | some player =>
    match a.amount with
    | none => gs
    | some amount =>
      if amount == 0 then gs
      else
        let highestBet := getHighestCurrentBet gs
        let raiseTotal := min amount (player.chips + player.currentBet)
        let actualRaise := raiseTotal - player.currentBet
        let players1 :=
          updateFirst gs.players a.playerId
            (fun p =>
              { p with
                chips := p.chips - actualRaise
                currentBet := raiseTotal
                totalBet := p.totalBet + actualRaise
                hasActed := true })
        let players2 := reopenOthers players1 a.playerId
        let players3 :=
          if player.chips - actualRaise == 0 then
            updateFirst players2 a.playerId
              (fun p => { p with isAllIn := true })
          else players2
        { gs with
          players := players3
          pot := gs.pot + actualRaise
          lastRaise := raiseTotal - highestBet
          minBet := raiseTotal
          message :=
            if player.chips - actualRaise == 0 then
              player.name ++ " raises to " ++ toString raiseTotal ++
                " and is all-in"
            else player.name ++ " raises to " ++ toString raiseTotal }

/-- `PlayerActions.processAllIn`. -/
def processAllIn (gs : GameState) (pid : String) : GameState :=
  match findPlayer gs pid with
  | none => gs
  | some player =>
    let highestBet := getHighestCurrentBet gs
    let allInAmount := player.chips
    let newBet := player.currentBet + allInAmount
    let players1 :=
      updateFirst gs.players pid
        (fun p =>
          { p with
            chips := 0
            currentBet := p.currentBet + allInAmount
            totalBet := p.totalBet + allInAmount
            isAllIn := true
            hasActed := true })
    if newBet > highestBet then
      { gs with
        players := reopenOthers players1 pid
        pot := gs.pot + allInAmount
        lastRaise := newBet - highestBet
        minBet := newBet
        message :=
          player.name ++ " goes all-in with " ++ toString allInAmount }
    else
      { gs with
        players := players1
        pot := gs.pot + allInAmount
        message :=
          player.name ++ " goes all-in with " ++ toString allInAmount }

/-- `PlayerActions.processValidatedAction`. -/
def processValidatedAction (gs : GameState) (a : GameAction) : GameState :=
  match findPlayer gs a.playerId with
  | none => gs
  | some _ =>
    match a.type with
    | .Fold => processFold gs a.playerId
    | .Check => processCheck gs a.playerId
    | .Call => processCall gs a.playerId
    | .Raise => processRaise gs a
    | .AllIn => processAllIn gs a.playerId

/-! ## GameEngine: active-player queries (src/lib/GameEngine.ts) -/

/-- `GameEngine.getActivePlayers`: not folded, has chips or is all-in,
not a viewer. -/
def getActivePlayers (gs : GameState) : List Player :=
  gs.players.filter
    (fun p => !p.isFolded && (p.chips > 0 || p.isAllIn) && p.role != .VIEWER)

/-! ## GameEngine: hand evaluation -/

/-- `GameEngine.rankToValue`. -/
def rankToValue : Rank → Nat
  | .R2 => 2 | .R3 => 3 | .R4 => 4 | .R5 => 5 | .R6 => 6 | .R7 => 7
  | .R8 => 8 | .R9 => 9 | .R10 => 10 | .J => 11 | .Q => 12 | .K => 13
  | .A => 14

/-- `.sort((a, b) => b - a)` on numbers: a stable descending sort. -/
def sortDescNat (l : List Nat) : List Nat :=
  List.insertionSort (fun a b => b ≤ a) l

/-- One window `u[i] - u[i+4] === 4` of `checkSTRAIGHT`'s loop. -/
def window5 (u : List Nat) : Option Nat :=
  match u with
  | a :: _ :: _ :: _ :: e :: _ => if a - e == 4 then some a else none
  | _ => none

/-- The loop of `checkSTRAIGHT`: scan every 5-window of the
descending duplicate-free rank list. -/
def straightScan : List Nat → Option Nat
  | [] => none
  | a :: rest =>
    match window5 (a :: rest) with
    | some x => some x
    | none => straightScan rest

/-- `GameEngine.checkSTRAIGHT`: dedup + descending sort, scan for a
run of 5, then the wheel special case (A,5,4,3,2 → high card 5). -/
def checkSTRAIGHT (ranks : List Nat) : Bool × Nat :=
  let u := sortDescNat ranks.dedup
  match straightScan u with
  | some h => (true, h)
  | none =>
    if [14, 5, 4, 3, 2].all (fun x => u.contains x) then (true, 5)
    else (false, 0)

/-- The insertion-ordered `Map<number, number>` of rank-value counts. -/
def bumpCount : List (Nat × Nat) → Nat → List (Nat × Nat)
  | [], v => [(v, 1)]
  | (k, c) :: rest, v =>
    if k == v then (k, c + 1) :: rest else (k, c) :: bumpCount rest v

def countsList (vals : List Nat) : List (Nat × Nat) :=
  vals.foldl bumpCount []

/-- `.sort((a, b) => b[1] - a[1] || b[0] - a[0])`: count descending,
then value descending. -/
def groupedOf (vals : List Nat) : List (Nat × Nat) :=
  List.insertionSort
    (fun a b => b.2 < a.2 ∨ (a.2 = b.2 ∧ b.1 ≤ a.1)) (countsList vals)

/-- `suits.every(s => s === suits[0])` of `evaluateFive`. -/
def allSameSuit (cards : List Card) : Bool :=
  match cards.map Card.suit with
  | [] => true
  | s0 :: rest => (s0 :: rest).all (fun s => s == s0)

/-- `GameEngine.evaluateFive`.  `grouped[0]`/`grouped[1]` are read with
a `(0, 0)` default; for the 5-card inputs the source is called on they
always exist. -/
def evaluateFive (cards : List Card) : EvaluatedHand :=
  let isFLUSH := allSameSuit cards
  let rankValues := sortDescNat (cards.map (fun c => rankToValue c.rank))
  let st := checkSTRAIGHT rankValues
  let isSTRAIGHT := st.1
  let straightHigh := st.2
  let grouped := groupedOf rankValues
  let g0 := grouped.head?.getD (0, 0)
  let g1 := (grouped.drop 1).head?.getD (0, 0)
  if isSTRAIGHT && isFLUSH then
    ⟨if straightHigh == 14 then .ROYALFLUSH else .STRAIGHTFLUSH,
      [straightHigh]⟩
  else if g0.2 == 4 then ⟨.FOUROFKIND, [g0.1, g1.1]⟩
  else if g0.2 == 3 && g1.2 == 2 then ⟨.FULLHOUSE, [g0.1, g1.1]⟩
  else if isFLUSH then ⟨.FLUSH, rankValues⟩
  else if isSTRAIGHT then ⟨.STRAIGHT, [straightHigh]⟩
  else if g0.2 == 3 then
    ⟨.THREEOFAKIND, g0.1 :: (rankValues.filter (fun v => v ≠ g0.1)).take 2⟩
  else if g0.2 == 2 && g1.2 == 2 then
    let highPair := max g0.1 g1.1
    let lowPair := min g0.1 g1.1
    let kicker :=
      (rankValues.find? (fun v => v ≠ highPair ∧ v ≠ lowPair)).getD 0
    ⟨.TWOPAIR, [highPair, lowPair, kicker]⟩
  else if g0.2 == 2 then
    ⟨.ONEPAIR, g0.1 :: (rankValues.filter (fun v => v ≠ g0.1)).take 3⟩
  else ⟨.HIGHCARD, rankValues⟩

/-- Position in the fixed category hierarchy of `compareHands`. -/
def hierarchyIndex : HandRank → Nat
  | .HIGHCARD => 0 | .ONEPAIR => 1 | .TWOPAIR => 2 | .THREEOFAKIND => 3
  | .STRAIGHT => 4 | .FLUSH => 5 | .FULLHOUSE => 6 | .FOUROFKIND => 7
  | .STRAIGHTFLUSH => 8 | .ROYALFLUSH => 9

/-- The element-by-element tiebreaker loop of `compareHands`.
(When `a` is longer than `b` the source would compute `NaN`; that case
is unreachable for same-category hands, whose tiebreakers have equal
length, and the embedding returns `0` there.) -/
def compareTie : List Nat → List Nat → Int
  | a :: as, b :: bs =>
    if a ≠ b then (a : Int) - (b : Int) else compareTie as bs
  | _, _ => 0

/-- `GameEngine.compareHands`. -/
def compareHands (a b : EvaluatedHand) : Int :=
  let diff := (hierarchyIndex a.rank : Int) - (hierarchyIndex b.rank : Int)
  if diff ≠ 0 then diff else compareTie a.tiebreaker b.tiebreaker

/-- `GameEngine.getCombinations` (same recursion and output order). -/
def getCombinations : List Card → Nat → List (List Card)
  | _, 0 => [[]]
  | [], _ + 1 => []
  | a :: rest, k + 1 =>
    getCombinations rest (k + 1) ++
      (getCombinations rest k).map (fun c => a :: c)

/-- `GameEngine.evaluateBestHand`: card-count guards, duplicate
detection by rank+suit identity, then the best 5-card subset. -/
def evaluateBestHand (cards : List Card) : Except String EvaluatedHand :=
  if cards.length < 5 then .error "Need at least 5 cards"
  else if cards.length > 7 then
    .error ("Too many cards (" ++ toString cards.length ++ "); maximum is 7.")
  else if ¬cards.Nodup then .error "Duplicate card detected"
  else
    match getCombinations cards 5 with
    | [] => .error "Need at least 5 cards"
    | c :: cs =>
      .ok (cs.foldl
        (fun best combo =>
          let e := evaluateFive combo
          if compareHands e best > 0 then e else best)
        (evaluateFive c))

/-- The `contenders.map(...)` of `SHOWDOWN`: evaluates each
contender's best hand left to right; the first thrown error (missing
hole cards, or an `evaluateBestHand` failure) aborts the whole map. -/
def showdownEval (communityCards : List Card) :
    List Player → Except String (List SHOWDOWNResult)
  | [] => .ok []
  | p :: ps =>
    if p.hand.length ≠ 2 then
      .error ("Player " ++ p.id ++ " does not have exactly 2 hole cards.")
    else do
      let e ← evaluateBestHand (p.hand ++ communityCards)
      let rest ← showdownEval communityCards ps
      .ok (SHOWDOWNResult.mk p e :: rest)

/-- `GameEngine.SHOWDOWN`. -/
def SHOWDOWN (players : List Player) (communityCards : List Card) :
    Except String (List SHOWDOWNResult) :=
  if communityCards.length < 3 || communityCards.length > 5 then
    .error "Community cards must be between 3 and 5"
  else
    let contenders := players.filter (fun p => !p.isFolded)
    if contenders.isEmpty then .error "No players are eligible for SHOWDOWN"
    else do
      let results ← showdownEval communityCards contenders
      match results with
      | [] => .error "No players are eligible for SHOWDOWN"
      | r0 :: rest =>
        let bestEval := rest.foldl
          (fun b r => if compareHands r.evaluation b > 0 then r.evaluation
                      else b)
          r0.evaluation
        .ok ((r0 :: rest).filter
          (fun r => compareHands r.evaluation bestEval == 0))

/-! ## GameEngine: side-pot construction (`createAllPots`) -/

/-- The indexed loop of `createAllPots` over the bet-sorted
contributors.  `sortedByBet.length - i` is `1 + tail.length`;
`isFirst` tracks `i === 0` (so `isMainPot` can only be set by the very
first contributor).  Returns the built pots together with the final
`remainingPot`. -/
def potsLoop : List Player → Int → Int → Nat → Bool → List Pot × Int
  | [], _, remainingPot, _, _ => ([], remainingPot)
  | p :: tail, currentLevel, remainingPot, potIndex, isFirst =>
    let betLevel := p.totalBet
    if betLevel > currentLevel ∧ remainingPot > 0 then
      let calculatedAmount := (betLevel - currentLevel) * (1 + tail.length)
      let potAmount := min calculatedAmount remainingPot
      let eligiblePlayers := (p :: tail).filter (fun q => !q.isFolded)
      if potAmount > 0 ∧ eligiblePlayers ≠ [] then
        let pot : Pot :=
          ⟨"pot-" ++ toString potIndex, potAmount, eligiblePlayers,
            isFirst, betLevel⟩
        let rest :=
          potsLoop tail betLevel (remainingPot - potAmount) (potIndex + 1)
            false
        (pot :: rest.1, rest.2)
      else potsLoop tail betLevel remainingPot potIndex false
    else potsLoop tail currentLevel remainingPot potIndex false

/-- `GameEngine.createAllPots`. -/
def createAllPots (gs : GameState) : List Pot :=
  let activePlayers := gs.players.filter (fun p => p.totalBet > 0)
  if activePlayers.isEmpty ∨ gs.pot == 0 then []
  else
    let sortedByBet :=
      List.insertionSort (fun a b : Player => a.totalBet ≤ b.totalBet)
        activePlayers
    let res := potsLoop sortedByBet 0 gs.pot 0 true
    match res.1, res.2 with
    | [], _ => []
    | first :: rest, remaining =>
      if remaining > 0 then
        { first with amount := first.amount + remaining } :: rest
      else first :: rest

def sumPotAmounts (pots : List Pot) : Int := (pots.map Pot.amount).sum

def sumDistributed (ds : List PotDistribution) : Int :=
  (ds.map PotDistribution.amount).sum

/-! ## GameEngine: pot distribution -/

/-- `winner.chips += amount` through the player's identity. -/
def addChips (gs : GameState) (pid : String) (amt : Int) : GameState :=
  { gs with
    players :=
      updateFirst gs.players pid (fun p => { p with chips := p.chips + amt }) }

/-- `winners.map((result, index) => ...)`: a map that also sees the
element index. -/
def mapWithIndex (f : Nat → SHOWDOWNResult → PotDistribution) :
    Nat → List SHOWDOWNResult → List PotDistribution
  | _, [] => []
  | i, r :: rs => f i r :: mapWithIndex f (i + 1) rs

/-- `GameEngine.distributeSinglePot`.  `Math.floor(pot.amount /
winners.length)` is `Int.fdiv`; JS `%` is `Int.tmod`. -/
def distributeSinglePot (gs : GameState) (pot : Pot) :
    Except String (PotResult × GameState) :=
  let eligiblePlayers := pot.eligiblePlayers.filter (fun p => !p.isFolded)
  match eligiblePlayers with
  | [] => .ok (⟨[], 0, "No eligible players for pot"⟩, gs)
  | [winner] =>
    .ok
      (⟨[⟨winner.id, pot.amount, pot.id, none⟩], pot.amount,
          winner.name ++ " wins " ++ toString pot.amount ++ " (uncontested)"⟩,
        addChips gs winner.id pot.amount)
  | _ => do
    let winners ← SHOWDOWN eligiblePlayers gs.communityCards
    let winnerShare := Int.fdiv pot.amount winners.length
    let remainder := Int.tmod pot.amount winners.length
    let distributions :=
      mapWithIndex
        (fun i r =>
          ⟨r.player.id,
            winnerShare + (if (i : Int) < remainder then 1 else 0), pot.id,
            some r.evaluation.rank⟩)
        0 winners
    let gs' := distributions.foldl
      (fun g d => addChips g d.playerId d.amount) gs
    .ok
      (⟨distributions, pot.amount,
          "Pot split between " ++ toString winners.length ++ " player(s)"⟩,
        gs')

/-- `GameEngine.distributeAllPots`: distributes every pot in order,
concatenates distributions, sums the distributed totals, then zeroes
`gameState.pot`. -/
def distributeAllPotsLoop (gs : GameState) :
    List Pot → Except String (List PotDistribution × Int × GameState)
  | [] => .ok ([], 0, gs)
  | pot :: rest => do
    let r ← distributeSinglePot gs pot
    let rs ← distributeAllPotsLoop r.2 rest
    .ok (r.1.distributions ++ rs.1, r.1.totalDistributed + rs.2.1, rs.2.2)

def distributeAllPots (gs : GameState) (pots : List Pot) :
    Except String (PotResult × GameState) := do
  let r ← distributeAllPotsLoop gs pots
  .ok
    (⟨r.1, r.2.1,
        "Distributed " ++ toString r.2.1 ++ " chips across " ++
          toString pots.length ++ " pot(s)"⟩,
      { r.2.2 with pot := 0 })

/-! ## GameEngine: button rotation -/

/-- Sets the role of the `i`-th non-viewer seat
(`activePlayers[i].role = r` writes through to `gameState.players`). -/
def setRoleAtActive (ps : List Player) (i : Nat) (r : Role) : List Player :=
  match ps with
  | [] => []
  | p :: rest =>
    if p.role == .VIEWER then p :: setRoleAtActive rest i r
    else
      match i with
      | 0 => { p with role := r } :: rest
      | i + 1 => p :: setRoleAtActive rest i r

/-- `GameEngine.rotateDealerButton`.  Operates on the non-viewer seats;
heads-up (exactly 2 non-viewers) assigns only `DEALER` and `BIG_BLIND`
(the dealer is meant to post the small blind). -/
def rotateDealerButton (gs : GameState) : GameState :=
  let activePlayers := gs.players.filter (fun p => p.role != .VIEWER)
  let activeCount := activePlayers.length
  if activeCount < 2 then gs
  else
    let dealerIndex :=
      (activePlayers.findIdx? (fun p => p.role == .DEALER)).getD 0
    let dealerIndex := (dealerIndex + 1) % activeCount
    let cleared := gs.players.map
      (fun p => if p.role != .VIEWER then { p with role := .NO_ROLE } else p)
    let withDealer := setRoleAtActive cleared dealerIndex .DEALER
    if activeCount == 2 then
      { gs with
        players :=
          setRoleAtActive withDealer ((dealerIndex + 1) % activeCount)
            .BIG_BLIND }
    else
      { gs with
        players :=
          setRoleAtActive
            (setRoleAtActive withDealer ((dealerIndex + 1) % activeCount)
              .SMALL_BLIND)
            ((dealerIndex + 2) % activeCount) .BIG_BLIND }

/-- `GameEngine.setPREFLOPFirstPlayer`: the seat after the big blind. -/
def setPREFLOPFirstPlayer (gs : GameState) : GameState :=
  match gs.players.findIdx? (fun p => p.role == .BIG_BLIND) with
  | none => gs
  | some bigBlindIndex =>
    { gs with
      currentPlayerIndex := (bigBlindIndex + 1) % gs.players.length }

/-! ## PokerGame (src/lib/PokerGame.ts) and Deck (src/lib/Deck.ts) -/

/-- `initializePlayers` (src/common/interface.ts): ids are the seat
indices; initial roles depend on the player count. -/
def initRole (count idx : Nat) : Role :=
  if count == 2 then
    if idx == 0 then .DEALER else .BIG_BLIND
  else if idx == 0 then .DEALER
  else if idx == 1 then .SMALL_BLIND
  else if idx == 2 then .BIG_BLIND
  else .NO_ROLE

def initializePlayers (names : List String) : List Player :=
  (names.enum).map (fun ni =>
    { id := toString ni.1
      name := ni.2
      hand := []
      chips := 1000
      currentBet := 0
      totalBet := 0
      isFolded := false
      role := initRole names.length ni.1
      hasActed := false
      isAllIn := false })

/-- `PokerGame.initializeGame` + constructor: resets every player to
1000 chips with the same role assignment, then builds the initial
state.  The deck produced by the constructor's shuffle is a
parameter (`initialDeck`). -/
def initializeGame (names : List String) (initialDeck : List Card) :
    GameState :=
  { players := initializePlayers names
    deck := initialDeck
    pot := 0
    communityCards := []
    currentPlayerIndex := 0
    round := .PREFLOP
    bigBlind := 20
    smallBlind := 10
    minBet := 20
    lastRaise := 20
    message := "Game initialized. Ready to start a new hand."
    winners := []
    tournamentWinner := none
    gameEnded := false }

/-- `PokerGame.getActivePlayers` (engine's list, minus viewers —
already excluded by the engine's filter). -/
def pgActivePlayers (gs : GameState) : List Player :=
  (getActivePlayers gs).filter (fun p => !(p.role == .VIEWER))

/-- `PokerGame.shouldHandEndEarly`. -/
def shouldHandEndEarly (gs : GameState) : Bool :=
  (pgActivePlayers gs).length ≤ 1

/-- `PokerGame.handleAutomaticWin`: with exactly one active player it
jumps to SHOWDOWN and declares them winner; with none it still jumps
to SHOWDOWN (and returns `null`); otherwise it is a no-op. -/
def handleAutomaticWin (gs : GameState) : Option Player × GameState :=
  match pgActivePlayers gs with
  | [winner] =>
    (some winner,
      { gs with
        round := .SHOWDOWN
        message := winner.name ++ " wins by default (all others folded)!"
        winners := [winner] })
  | [] =>
    (none,
      { gs with
        round := .SHOWDOWN
        message := "Hand ended with no active players" })
  | _ => (none, gs)

/-- `PokerGame.validatePlayerAction`: rejects everything once the hand
should end early, else defers to the engine. -/
def pgValidatePlayerAction (gs : GameState) (a : GameAction) :
    ActionValidation :=
  if shouldHandEndEarly gs then
    ⟨false, some "Hand is already complete - only one player remains", [],
      none, none⟩
  else validatePlayerAction gs a

structure ProcessResult where
  success : Bool
  message : String
  gameState : GameState
deriving DecidableEq, Repr

/-- `PokerGame.processAction`. -/
def processAction (gs : GameState) (a : GameAction) : ProcessResult :=
  match handleAutomaticWin gs with
  | (some _, gs1) => ⟨true, gs1.message, gs1⟩
  | (none, gs1) =>
    let validation := pgValidatePlayerAction gs1 a
    if !validation.isValid then
      ⟨false, validation.reason.getD "Invalid action", gs1⟩
    else
      let gs2 := processValidatedAction gs1 a
      if a.type == .Fold then
        match handleAutomaticWin gs2 with
        | (some _, gs3) => ⟨true, gs3.message, gs3⟩
        | (none, gs3) => ⟨true, gs3.message, gs3⟩
      else ⟨true, gs2.message, gs2⟩

/-- `PokerGame.hasTournamentWinner`. -/
def hasTournamentWinner (gs : GameState) : Bool :=
  let nonViewerPlayers := gs.players.filter (fun p => p.role != .VIEWER)
  let playersWithChips := nonViewerPlayers.filter (fun p => p.chips > 0)
  playersWithChips.length == 1 ∧ gs.players.length ≥ 2

/-- `PokerGame.getTournamentWinner`. -/
def getTournamentWinner (gs : GameState) : Option Player :=
  if hasTournamentWinner gs then
    gs.players.find? (fun p => p.chips > 0 && p.role != .VIEWER)
  else none

/-- `PokerGame.placeBlinds`.  The heads-up test is
`players.length === 2` on the **whole** seat list (viewers included) —
this is where the heads-up blind rule breaks once viewers exist. -/
def placeBlinds (gs : GameState) : GameState :=
  let isHeadsUp := gs.players.length == 2
  let sbPred := fun (p : Player) =>
    p.role == .SMALL_BLIND || (isHeadsUp && p.role == .DEALER)
  let gs1 :=
    match gs.players.find? sbPred with
    | none => gs
    | some sb =>
      let sbAmount := min sb.chips gs.smallBlind
      { gs with
        players :=
          updateFirstP gs.players sbPred (fun p =>
            { p with
              currentBet := sbAmount
              totalBet := sbAmount
              chips := p.chips - sbAmount
              isAllIn := if p.chips - sbAmount == 0 then true else p.isAllIn })
        pot := gs.pot + sbAmount }
  let gs2 :=
    match gs1.players.find? (fun p => p.role == .BIG_BLIND) with
    | none => gs1
    | some bb =>
      let bbAmount := min bb.chips gs1.bigBlind
      { gs1 with
        players :=
          updateFirstP gs1.players (fun p => p.role == Role.BIG_BLIND) (fun p =>
            { p with
              currentBet := bbAmount
              totalBet := bbAmount
              chips := p.chips - bbAmount
              isAllIn := if p.chips - bbAmount == 0 then true else p.isAllIn })
        pot := gs1.pot + bbAmount }
  { gs2 with message := "Blinds posted" }

/-- `PokerGame.setupNewHand`: clears the per-hand fields, eliminates
broke players to viewers, resets player flags (including `isFolded`,
even for viewers), rotates the button. -/
def setupNewHand (gs : GameState) (shuffled : List Card) : GameState :=
  let gs1 :=
    { gs with
      pot := 0
      communityCards := []
      minBet := gs.bigBlind
      lastRaise := gs.bigBlind
      deck := shuffled }
  let eliminated :=
    gs1.players.map (fun p =>
      if p.chips == 0 && p.role != .VIEWER then
        { p with role := Role.VIEWER, isFolded := true }
      else p)
  let reset :=
    eliminated.map (fun p =>
      { p with
        hand := ([] : List Card)
        currentBet := 0
        totalBet := 0
        isFolded := false
        hasActed := false
        isAllIn := false })
  let gs2 := rotateDealerButton { gs1 with players := reset }
  { gs2 with message := "New hand started" }

/-- Whether a player is dealt hole cards
(`(p.chips > 0 || p.totalBet > 0) && p.role !== VIEWER`). -/
def eligibleForHoleCards (p : Player) : Bool :=
  (p.chips > 0 || p.totalBet > 0) && p.role != .VIEWER

/-- One pass of `Deck.dealToPlayers`: give one card (from the front of
the deck) to each eligible player whose hand is still short of 2
cards.  `dealOne` on an empty deck throws. -/
def dealPass (ps : List Player) (deck : List Card) :
    Except String (List Player × List Card) :=
  match ps with
  | [] => .ok ([], deck)
  | p :: rest =>
    if eligibleForHoleCards p && p.hand.length < 2 then
      match deck with
      | [] => .error "No more cards in the deck"
      | c :: deck' => do
        let r ← dealPass rest deck'
        .ok ({ p with hand := p.hand ++ [c] } :: r.1, r.2)
    else do
      let r ← dealPass rest deck
      .ok (p :: r.1, r.2)

/-- `PokerGame.dealHoleCards` + `Deck.dealToPlayers`: two passes, one
card per pass (the eligibility fields are untouched by dealing, so
re-testing the filter on the second pass matches the source's
pre-computed `activePlayers` array). -/
def dealHoleCards (gs : GameState) : Except String GameState := do
  let r1 ← dealPass gs.players gs.deck
  let r2 ← dealPass r1.1 r1.2
  .ok { gs with players := r2.1, deck := r2.2, message := "Hole cards dealt" }

/-- `PokerGame.startNewHand`, with the freshly shuffled deck as an
explicit parameter. -/
def startNewHand (gs : GameState) (shuffled : List Card) :
    Except String GameState :=
  if hasTournamentWinner gs then
    let winner := getTournamentWinner gs
    .ok
      { gs with
        tournamentWinner := winner
        gameEnded := true
        message :=
          "🏆 " ++ ((winner.map Player.name).getD "") ++
            " wins the tournament! 🏆" }
  else do
    let gs1 := { gs with winners := ([] : List Player) }
    let gs2 := setupNewHand gs1 shuffled
    let gs3 := placeBlinds gs2
    let gs4 ← dealHoleCards gs3
    .ok (setPREFLOPFirstPlayer { gs4 with round := Round.PREFLOP })

/-! ## Card serialization (src/lib/Deck.ts) -/

/-- The string value of a `RankEnum` member. -/
def rankStr : Rank → String
  | .R2 => "2" | .R3 => "3" | .R4 => "4" | .R5 => "5" | .R6 => "6"
  | .R7 => "7" | .R8 => "8" | .R9 => "9" | .R10 => "10"
  | .J => "J" | .Q => "Q" | .K => "K" | .A => "A"

/-- The string value of a `SuitEnum` member. -/
def suitStr : Suit → String
  | .SPADES => "SPADES" | .HEARTS => "HEARTS"
  | .DIAMONDS => "DIAMONDS" | .CLUBS => "CLUBS"

/-- `cardToString`: `` `${card.rank}${card.suit}` ``. -/
def cardToString (card : Card) : String :=
  rankStr card.rank ++ suitStr card.suit

/-- The rank alternative `([2-9]|10|J|Q|K|A)` of `stringToCard`'s
regex, applied at the start of the character list (the alternatives
are mutually exclusive on their first character, so ordered testing
matches the regex). -/
def splitTen : List Char → Option (Rank × List Char)
  | [] => none
  | c2 :: rest2 => if c2 = '0' then some (.R10, rest2) else none

def splitRank : List Char → Option (Rank × List Char)
  | [] => none
  | ch :: rest =>
    if ch = '2' then some (.R2, rest)
    else if ch = '3' then some (.R3, rest)
    else if ch = '4' then some (.R4, rest)
    else if ch = '5' then some (.R5, rest)
    else if ch = '6' then some (.R6, rest)
    else if ch = '7' then some (.R7, rest)
    else if ch = '8' then some (.R8, rest)
    else if ch = '9' then some (.R9, rest)
    else if ch = '1' then splitTen rest
    else if ch = 'J' then some (.J, rest)
    else if ch = 'Q' then some (.Q, rest)
    else if ch = 'K' then some (.K, rest)
    else if ch = 'A' then some (.A, rest)
    else none

/-- The suit alternative `(SPADES|HEARTS|DIAMONDS|CLUBS)$`. -/
def parseSuit (rest : List Char) : Option Suit :=
  if rest = "SPADES".data then some .SPADES
  else if rest = "HEARTS".data then some .HEARTS
  else if rest = "DIAMONDS".data then some .DIAMONDS
  else if rest = "CLUBS".data then some .CLUBS
  else none

/-- `stringToCard`: anchored match of
`^([2-9]|10|J|Q|K|A)(SPADES|HEARTS|DIAMONDS|CLUBS)$`; `null` on
anything else. -/
def stringToCard (code : String) : Option Card :=
  match splitRank code.data with
  | none => none
  | some (r, rest) =>
    match parseSuit rest with
    | none => none
    | some s => some ⟨r, s⟩

/-! ## Monte Carlo equity simulator (src/lib/MonteCarloSimulation.ts)

The Fisher-Yates shuffle of each trial is replaced by a shuffle oracle
`shuffleFn : Nat → List Card` giving the shuffled copy of
`availableCards` used by trial `i`.  The memoization cache is omitted:
it only replays an earlier result for an identical query.  A JS
`TypeError` from indexing past the shuffled array, or reading
`.rank` of `opponentEvaluations[0]` when there are no opponents, and
any exception from `evaluateBestHand`, all abort the simulation; they
are modelled as `none` from a trial (mapped to `SimError.trialError`),
distinct from the two explicit validation errors. -/

inductive SimError where
  | validationError (msg : String)
  | trialError
deriving DecidableEq, Repr

structure TrialOutcome where
  playerWins : Bool
  isTie : Bool
  playerHand : EvaluatedHand
  bestOpponentHand : EvaluatedHand
deriving DecidableEq, Repr

/-- `ALL_CARDS` minus the cards already visible (the used-card `Set`
keyed by rank+suit is exactly card equality). -/
def availableCards (playerCards communityCards : List Card) : List Card :=
  ALL_CARDS.filter (fun c => !((playerCards ++ communityCards).contains c))

/-- `while (finalCommunityCards.length < 5) push(shuffled[cardIndex++])`. -/
def padCommunity (communityCards shuffled : List Card) :
    Option (List Card × List Card) :=
  let need := 5 - communityCards.length
  if shuffled.length < need then none
  else some (communityCards ++ shuffled.take need, shuffled.drop need)

/-- Dealing 2 consecutive shuffled cards to each of `n` opponents. -/
def dealOpponents : Nat → List Card → Option (List (List Card) × List Card)
  | 0, deck => some ([], deck)
  | n + 1, c1 :: c2 :: deck =>
    (dealOpponents n deck).map (fun r => ([c1, c2] :: r.1, r.2))
  | _ + 1, _ => none

/-- `MonteCarloSimulation.runSingleSimulation` for one shuffled deck.
The `for` loop over opponents runs `max 0 numOpponents` times
(`Int.toNat`). -/
def runSingleSimulation (playerCards communityCards shuffled : List Card)
    (numOpponents : Int) : Option TrialOutcome := do
  let pad ← padCommunity communityCards shuffled
  let finalCommunity := pad.1
  let opp ← dealOpponents numOpponents.toNat pad.2
  let playerHand ← (evaluateBestHand (playerCards ++ finalCommunity)).toOption
  let opponentEvaluations ←
    opp.1.mapM (fun oc => (evaluateBestHand (oc ++ finalCommunity)).toOption)
  let best0 ← opponentEvaluations.head?
  let bestOpponentHand :=
    (opponentEvaluations.drop 1).foldl
      (fun b e => if compareHands e b > 0 then e else b) best0
  let comparison := compareHands playerHand bestOpponentHand
  some ⟨comparison > 0, comparison == 0, playerHand, bestOpponentHand⟩

/-- The trial loop (`for i = 0; i < SIMULATION_COUNT`), collecting
outcomes; any trial failure aborts everything (an exception would
propagate out of `runSimulation`). -/
def runTrials (shuffleFn : Nat → List Card)
    (playerCards communityCards : List Card) (numOpponents : Int) :
    Nat → Nat → Option (List TrialOutcome)
  | _, 0 => some []
  | i, k + 1 => do
    let t ←
      runSingleSimulation playerCards communityCards (shuffleFn i)
        numOpponents
    let ts ←
      runTrials shuffleFn playerCards communityCards numOpponents (i + 1) k
    some (t :: ts)

/-- `MONTE_CARLO_CONFIG.SIMULATION_COUNT`. -/
def SIMULATION_COUNT : Nat := 10000

def allHandRanks : List HandRank :=
  [.HIGHCARD, .ONEPAIR, .TWOPAIR, .THREEOFAKIND, .STRAIGHT, .FLUSH,
    .FULLHOUSE, .FOUROFKIND, .STRAIGHTFLUSH, .ROYALFLUSH]

/-- The prediction result.  Rates are `count / SIMULATION_COUNT * 100`
as rationals; the per-category tallies keep the raw counts (the
source's `convertToHandStrengthResults` only post-processes them into
percentages for display). -/
structure PredictionResult where
  winRate : ℚ
  tieRate : ℚ
  loseRate : ℚ
  handStrengths : List (HandRank × Nat)
  opponentHandStrengths : List (HandRank × Nat)
  totalSimulations : Nat
deriving DecidableEq, Repr

def tallyRanks (rs : List TrialOutcome) (f : TrialOutcome → HandRank) :
    List (HandRank × Nat) :=
  allHandRanks.map (fun hr => (hr, (rs.filter (fun t => f t == hr)).length))

def aggregateTrials (rs : List TrialOutcome) : PredictionResult :=
  let wins := (rs.filter (fun t => t.playerWins)).length
  let ties := (rs.filter (fun t => !t.playerWins && t.isTie)).length
  let losses := (rs.filter (fun t => !t.playerWins && !t.isTie)).length
  { winRate := (wins : ℚ) / (SIMULATION_COUNT : ℚ) * 100
    tieRate := (ties : ℚ) / (SIMULATION_COUNT : ℚ) * 100
    loseRate := (losses : ℚ) / (SIMULATION_COUNT : ℚ) * 100
    handStrengths := tallyRanks rs (fun t => t.playerHand.rank)
    opponentHandStrengths := tallyRanks rs (fun t => t.bestOpponentHand.rank)
    totalSimulations := SIMULATION_COUNT }

/-- `MonteCarloSimulation.runSimulation`: the only validation is on the
hole-card and community-card counts — `numOpponents` is never
checked. -/
def runSimulation (shuffleFn : Nat → List Card)
    (playerCards communityCards : List Card) (numOpponents : Int) :
    Except SimError PredictionResult :=
  if playerCards.length ≠ 2 then
    .error (.validationError "Player must have exactly 2 hole cards")
  else if communityCards.length < 3 ∨ communityCards.length > 5 then
    .error (.validationError "Community cards must be between 3 and 5 cards")
  else
    match
      runTrials shuffleFn playerCards communityCards numOpponents 0
        SIMULATION_COUNT
    with
    | none => .error .trialError
    | some rs => .ok (aggregateTrials rs)

/-! ## Concrete example states used by the claim witnesses and counterexamples -/

def c4WitnessPlayer : Player :=
  ⟨"0", "P0", [], 1000, 0, 0, false, .DEALER, false, false⟩

def c4WitnessState : GameState :=
  { players :=
      [c4WitnessPlayer,
        ⟨"1", "P1", [], 980, 20, 20, false, .BIG_BLIND, false, false⟩]
    deck := []
    pot := 20
    communityCards := []
    currentPlayerIndex := 0
    round := .PREFLOP
    bigBlind := 20
    smallBlind := 10
    minBet := 20
    lastRaise := 20
    message := ""
    winners := []
    tournamentWinner := none
    gameEnded := false }

def c4WitnessAction : GameAction := ⟨"0", .Raise, some 40⟩

def c8WitnessState : GameState :=
  { players :=
      [⟨"0", "P0", [], 1000, 0, 0, false, .DEALER, false, false⟩,
        ⟨"1", "P1", [], 980, 20, 20, false, .BIG_BLIND, false, false⟩]
    deck := []
    pot := 20
    communityCards := []
    currentPlayerIndex := 0
    round := .PREFLOP
    bigBlind := 20
    smallBlind := 10
    minBet := 20
    lastRaise := 20
    message := ""
    winners := []
    tournamentWinner := none
    gameEnded := false }

def c2WitnessState : GameState :=
  { players :=
      [⟨"0", "A", [], 0, 0, 100, false, .NO_ROLE, true, true⟩,
        ⟨"1", "B", [], 0, 0, 200, false, .NO_ROLE, true, true⟩,
        ⟨"2", "C", [], 0, 0, 300, false, .NO_ROLE, true, true⟩]
    deck := []
    pot := 600
    communityCards := []
    currentPlayerIndex := 0
    round := .RIVER
    bigBlind := 20
    smallBlind := 10
    minBet := 20
    lastRaise := 20
    message := ""
    winners := []
    tournamentWinner := none
    gameEnded := false }

abbrev potOK (gs : GameState) (pot : Pot) : Prop :=
  0 ≤ pot.amount ∧
  pot.eligiblePlayers.filter (fun p => !p.isFolded) ≠ [] ∧
  ∀ p ∈ pot.eligiblePlayers.filter (fun p => !p.isFolded),
    p.hand.length = 2 ∧ (p.hand ++ gs.communityCards).Nodup ∧
    p.id ∈ gs.players.map Player.id

def C3deadPot : Pot := ⟨"pot-0", 100, [], true, 100⟩

def C3gs : GameState :=
  { players := [⟨"0", "P0", [], 500, 0, 0, false, .NO_ROLE, false, false⟩]
    deck := []
    pot := 100
    communityCards :=
      [⟨.R2, .SPADES⟩, ⟨.R3, .HEARTS⟩, ⟨.R4, .DIAMONDS⟩]
    currentPlayerIndex := 0
    round := .SHOWDOWN
    bigBlind := 20
    smallBlind := 10
    minBet := 20
    lastRaise := 20
    message := ""
    winners := []
    tournamentWinner := none
    gameEnded := false }

def C3Wp0 : Player :=
  ⟨"0", "P0", [⟨.A, .SPADES⟩, ⟨.K, .SPADES⟩], 0, 0, 100, false,
    .NO_ROLE, false, false⟩

def C3Wp1 : Player :=
  ⟨"1", "P1", [⟨.Q, .HEARTS⟩, ⟨.J, .HEARTS⟩], 0, 0, 100, false,
    .NO_ROLE, false, false⟩

def C3Wgs : GameState :=
  { players := [C3Wp0, C3Wp1]
    deck := []
    pot := 150
    communityCards :=
      [⟨.R2, .SPADES⟩, ⟨.R7, .HEARTS⟩, ⟨.R9, .DIAMONDS⟩]
    currentPlayerIndex := 0
    round := .SHOWDOWN
    bigBlind := 20
    smallBlind := 10
    minBet := 20
    lastRaise := 20
    message := ""
    winners := []
    tournamentWinner := none
    gameEnded := false }

def C3WpotMain : Pot := ⟨"pot-0", 101, [C3Wp0, C3Wp1], true, 100⟩

def C3WpotSide : Pot := ⟨"pot-1", 49, [C3Wp1], false, 50⟩

def C9pc : List Card := [⟨.A, .SPADES⟩, ⟨.K, .SPADES⟩]

def C9cc : List Card := [⟨.R2, .HEARTS⟩, ⟨.R7, .DIAMONDS⟩, ⟨.R9, .CLUBS⟩]

/-! # Theorems -/

/-! ## Helper lemmas about `updateFirst` and the chip sums -/

theorem chipsSum_nil : chipsSum [] = 0 := rfl

theorem chipsSum_cons (p : Player) (ps : List Player) :
    chipsSum (p :: ps) = p.chips + chipsSum ps := by
  simp [chipsSum]

theorem updateFirst_of_find_none {ps : List Player} {pid : String}
    (f : Player → Player) (h : ps.find? (fun p => p.id == pid) = none) :
    updateFirst ps pid f = ps := by
  induction ps with
  | nil => rfl
  | cons q qs ih =>
    rw [List.find?_cons] at h
    by_cases hq : (q.id == pid) = true
    · simp [hq] at h
    · have hq' : (q.id == pid) = false := by
        simpa using hq
      simp only [hq'] at h
      simp [updateFirst, hq', ih h]

theorem chipsSum_updateFirst_of_find {ps : List Player} {pid : String}
    {q : Player} (f : Player → Player)
    (h : ps.find? (fun p => p.id == pid) = some q) :
    chipsSum (updateFirst ps pid f) =
      chipsSum ps + ((f q).chips - q.chips) := by
  induction ps with
  | nil => simp at h
  | cons p rest ih =>
    rw [List.find?_cons] at h
    by_cases hp : (p.id == pid) = true
    · simp only [hp, if_true] at h
      obtain rfl : p = q := by simpa using h
      simp [updateFirst, hp, chipsSum_cons]
      ring
    · have hp' : (p.id == pid) = false := by simpa using hp
      simp only [hp'] at h
      simp [updateFirst, hp', chipsSum_cons, ih h]
      ring

theorem chipsSum_map_of_chips_eq {g : Player → Player}
    (hg : ∀ p, (g p).chips = p.chips) (ps : List Player) :
    chipsSum (ps.map g) = chipsSum ps := by
  induction ps with
  | nil => rfl
  | cons p rest ih => simp [chipsSum_cons, hg, ih]

theorem chipsSum_updateFirst_of_chips_eq {f : Player → Player}
    (hf : ∀ p, (f p).chips = p.chips) (ps : List Player) (pid : String) :
    chipsSum (updateFirst ps pid f) = chipsSum ps := by
  induction ps with
  | nil => rfl
  | cons p rest ih =>
    by_cases hp : (p.id == pid) = true
    · simp [updateFirst, hp, chipsSum_cons, hf]
    · have hp' : (p.id == pid) = false := by simpa using hp
      simp [updateFirst, hp', chipsSum_cons, ih]

theorem reopenF_id (pid : String) (p : Player) :
    (reopenF pid p).id = p.id := by
  unfold reopenF
  by_cases h : (p.id != pid && !p.isFolded && !p.isAllIn) = true <;>
    simp [h]

theorem reopenF_chips (pid : String) (p : Player) :
    (reopenF pid p).chips = p.chips := by
  unfold reopenF
  by_cases h : (p.id != pid && !p.isFolded && !p.isAllIn) = true <;>
    simp [h]

/-- The reopening pass leaves the actor (same `id`) unchanged. -/
theorem reopenF_self {pid : String} {p : Player} (h : p.id = pid) :
    reopenF pid p = p := by
  unfold reopenF
  rw [if_neg]
  simp [h]

theorem chipsSum_reopenOthers (ps : List Player) (pid : String) :
    chipsSum (reopenOthers ps pid) = chipsSum ps := by
  unfold reopenOthers
  exact chipsSum_map_of_chips_eq (reopenF_chips pid) ps

/-! ## C1: chip conservation -/

/-- C1 (counterexample): the spec's quantity
`pot + Σ chips + Σ currentBet` is **not** preserved by `processCall`.
In the heads-up state after blinds (pot 30, P0 at 980/20, P1 at
990/10), P1's call moves 10 chips into the pot *and* raises
`currentBet` by 10, so the quantity grows by 10 (2030 → 2040). -/
theorem c1_counterexample :
    specInvariantQty
        (processCall
          { players :=
              [⟨"0", "P0", [], 980, 20, 20, false, .BIG_BLIND, false, false⟩,
                ⟨"1", "P1", [], 990, 10, 10, false, .DEALER, false, false⟩]
            deck := []
            pot := 30
            communityCards := []
            currentPlayerIndex := 1
            round := .PREFLOP
            bigBlind := 20
            smallBlind := 10
            minBet := 20
            lastRaise := 20
            message := ""
            winners := []
            tournamentWinner := none
            gameEnded := false }
          "1") ≠
      specInvariantQty
        { players :=
            [⟨"0", "P0", [], 980, 20, 20, false, .BIG_BLIND, false, false⟩,
              ⟨"1", "P1", [], 990, 10, 10, false, .DEALER, false, false⟩]
          deck := []
          pot := 30
          communityCards := []
          currentPlayerIndex := 1
          round := .PREFLOP
          bigBlind := 20
          smallBlind := 10
          minBet := 20
          lastRaise := 20
          message := ""
          winners := []
          tournamentWinner := none
          gameEnded := false } := by
  decide

/-- C1 (amended): the quantity the code actually conserves is
`pot + Σ player.chips` (the pot already absorbs each transfer the
moment `currentBet` is tallied).  Each of `processCall`,
`processRaise` and `processAllIn` preserves it, for every game state
and action. -/
theorem c1_amended :
    ∀ (gs : GameState) (pid : String) (a : GameAction),
      potPlusChips (processCall gs pid) = potPlusChips gs ∧
        potPlusChips (processRaise gs a) = potPlusChips gs ∧
        potPlusChips (processAllIn gs pid) = potPlusChips gs := by
  intro gs pid a
  refine ⟨?_, ?_, ?_⟩
  · unfold processCall
    cases hfp : findPlayer gs pid with
    | none => rfl
    | some player =>
      unfold findPlayer at hfp
      simp only [potPlusChips,
        chipsSum_updateFirst_of_find _ hfp]
      ring
  · unfold processRaise
    cases hfp : findPlayer gs a.playerId with
    | none => rfl
    | some player =>
      unfold findPlayer at hfp
      cases ha : a.amount with
      | none => rfl
      | some amount =>
        by_cases h0 : (amount == 0) = true
        · simp [h0]
        · have h0' : (amount == 0) = false := by simpa using h0
          simp only [h0', Bool.false_eq_true, if_false, potPlusChips]
          by_cases hAll :
              (player.chips -
                  (min amount (player.chips + player.currentBet) -
                    player.currentBet) == 0) = true
          · simp only [hAll, if_true]
            rw [chipsSum_updateFirst_of_chips_eq (by intro p; rfl),
              chipsSum_reopenOthers,
              chipsSum_updateFirst_of_find _ hfp]
            ring
          · have hAll' := Bool.not_eq_true _ |>.mp hAll
            simp only [hAll', Bool.false_eq_true, if_false]
            rw [chipsSum_reopenOthers,
              chipsSum_updateFirst_of_find _ hfp]
            ring
  · unfold processAllIn
    cases hfp : findPlayer gs pid with
    | none => rfl
    | some player =>
      unfold findPlayer at hfp
      by_cases hgt :
          (player.currentBet + player.chips > getHighestCurrentBet gs)
      · simp only [potPlusChips, if_pos hgt]
        rw [chipsSum_reopenOthers, chipsSum_updateFirst_of_find _ hfp]
        ring
      · simp only [potPlusChips, if_neg hgt]
        rw [chipsSum_updateFirst_of_find _ hfp]
        ring

/-! ## Helper lemmas for the action-reopening claim (C4) -/

theorem mem_updateFirst {q : Player} {ps : List Player} {pid : String}
    {f : Player → Player} (h : q ∈ updateFirst ps pid f) :
    q ∈ ps ∨ ∃ p, p ∈ ps ∧ (p.id == pid) = true ∧ q = f p := by
  induction ps with
  | nil => simp [updateFirst] at h
  | cons p rest ih =>
    by_cases hp : (p.id == pid) = true
    · simp only [updateFirst, hp, if_true] at h
      rcases List.mem_cons.mp h with hq | hq
      · exact Or.inr ⟨p, List.mem_cons_self .., hp, hq⟩
      · exact Or.inl (List.mem_cons_of_mem _ hq)
    · have hp' : (p.id == pid) = false := by simpa using hp
      simp only [updateFirst, hp', Bool.false_eq_true, if_false] at h
      rcases List.mem_cons.mp h with hq | hq
      · exact Or.inl (hq ▸ List.mem_cons_self ..)
      · rcases ih hq with h1 | ⟨p', hp1, hp2, hp3⟩
        · exact Or.inl (List.mem_cons_of_mem _ h1)
        · exact Or.inr ⟨p', List.mem_cons_of_mem _ hp1, hp2, hp3⟩

theorem reopenOthers_mem {ps : List Player} {pid : String} {q : Player}
    (hq : q ∈ reopenOthers ps pid) (hid : q.id ≠ pid)
    (hf : q.isFolded = false) (ha : q.isAllIn = false) :
    q.hasActed = false := by
  unfold reopenOthers at hq
  rcases List.mem_map.mp hq with ⟨p, _, hpq⟩
  unfold reopenF at hpq
  by_cases hc : (p.id != pid && !p.isFolded && !p.isAllIn) = true
  · rw [if_pos hc] at hpq
    rw [← hpq]
  · rw [if_neg hc] at hpq
    subst hpq
    exfalso
    apply hc
    simp only [Bool.and_eq_true, bne_iff_ne, ne_eq, Bool.not_eq_true']
    exact ⟨⟨hid, hf⟩, ha⟩

theorem find?_map_id (g : Player → Player)
    (hg : ∀ p, (g p).id = p.id) (ps : List Player) (pid : String) :
    (ps.map g).find? (fun p => p.id == pid) =
      (ps.find? (fun p => p.id == pid)).map g := by
  induction ps with
  | nil => rfl
  | cons p rest ih =>
    simp only [List.map_cons, List.find?_cons]
    by_cases hp : (p.id == pid) = true
    · have hgp : ((g p).id == pid) = true := by rw [hg]; exact hp
      simp [hp, hgp]
    · have hp' : (p.id == pid) = false := by simpa using hp
      have hgp : ((g p).id == pid) = false := by rw [hg]; exact hp'
      simp [hp', hgp, ih]

theorem find?_updateFirst_id (f : Player → Player)
    (hf : ∀ p, (f p).id = p.id) (ps : List Player) (pid : String) :
    (updateFirst ps pid f).find? (fun p => p.id == pid) =
      (ps.find? (fun p => p.id == pid)).map f := by
  induction ps with
  | nil => rfl
  | cons p rest ih =>
    by_cases hp : (p.id == pid) = true
    · have hfp : ((f p).id == pid) = true := by rw [hf]; exact hp
      simp [updateFirst, hp, List.find?_cons, hfp]
    · have hp' : (p.id == pid) = false := by simpa using hp
      simp [updateFirst, hp', List.find?_cons, ih]


theorem find?_updateFirst_some (f : Player → Player)
    (hf : ∀ p, (f p).id = p.id) {ps : List Player} {pid : String}
    {q : Player} (h : ps.find? (fun p => p.id == pid) = some q) :
    (updateFirst ps pid f).find? (fun p => p.id == pid) = some (f q) := by
  rw [find?_updateFirst_id f hf, h]
  rfl

theorem find?_reopenOthers_some {ps : List Player} {pid : String}
    {q : Player} (h : ps.find? (fun p => p.id == pid) = some q) :
    (reopenOthers ps pid).find? (fun p => p.id == pid) =
      some (reopenF pid q) := by
  unfold reopenOthers
  rw [find?_map_id (reopenF pid) (reopenF_id pid), h]
  rfl

/-! ## C4: raises and raising all-ins reopen the action -/

/-- C4: after processing any valid Raise, and after any AllIn whose
resulting `currentBet` exceeds the prior highest bet, every other
non-folded, non-all-in player's `hasActed` is `false`, and the state
records `minBet` = the actor's new `currentBet` and `lastRaise` = the
new `currentBet` minus the prior highest bet. -/
theorem c4_raise_allin_reopen :
    ∀ (gs : GameState) (a : GameAction),
      (a.type = .Raise → (validatePlayerAction gs a).isValid = true →
        (∀ q ∈ (processRaise gs a).players, q.id ≠ a.playerId →
            q.isFolded = false → q.isAllIn = false → q.hasActed = false) ∧
          ∃ p', findPlayer (processRaise gs a) a.playerId = some p' ∧
            (processRaise gs a).minBet = p'.currentBet ∧
            (processRaise gs a).lastRaise =
              p'.currentBet - getHighestCurrentBet gs) ∧
      (∀ player, findPlayer gs a.playerId = some player →
        player.currentBet + player.chips > getHighestCurrentBet gs →
        (∀ q ∈ (processAllIn gs a.playerId).players, q.id ≠ a.playerId →
            q.isFolded = false → q.isAllIn = false → q.hasActed = false) ∧
          ∃ p',
            findPlayer (processAllIn gs a.playerId) a.playerId = some p' ∧
              (processAllIn gs a.playerId).minBet = p'.currentBet ∧
              (processAllIn gs a.playerId).lastRaise =
                p'.currentBet - getHighestCurrentBet gs) := by
  intro gs a
  constructor
  · intro ha hv
    cases hfp : findPlayer gs a.playerId with
    | none =>
      simp only [validatePlayerAction, hfp] at hv
      simp at hv
    | some player =>
      have hfp2 : gs.players.find? (fun p => p.id == a.playerId) =
          some player := hfp
      have hpid0 := List.find?_some hfp2
      have hpid : (player.id == a.playerId) = true := hpid0
      have hpe : player.id = a.playerId := by simpa using hpid
      simp only [validatePlayerAction, hfp, ha, validateRaise] at hv
      split_ifs at hv <;> try simp at hv
      case _ =>
        cases hamt : a.amount with
        | none => simp [hamt] at hv
        | some amt =>
          simp only [hamt] at hv
          split_ifs at hv with hz hcap <;> try simp at hv
          have h0 : (amt == 0) = false := by
            rw [beq_eq_false_iff_ne]
            exact fun he => hz (Or.inl he)
          clear hv
          simp only [processRaise, hfp, hamt, h0, Bool.false_eq_true,
            if_false]
          constructor
          · intro q hq hid hfq haq
            by_cases hall :
                (player.chips -
                    (min amt (player.chips + player.currentBet) -
                      player.currentBet) == 0) = true
            · simp only [hall, if_true] at hq
              rcases mem_updateFirst hq with hq2 | ⟨p, _, hp2, hp3⟩
              · exact reopenOthers_mem hq2 hid hfq haq
              · exfalso
                apply hid
                rw [hp3]
                simpa using hp2
            · have hall' : (player.chips -
                  (min amt (player.chips + player.currentBet) -
                    player.currentBet) == 0) = false := by simpa using hall
              simp only [hall', Bool.false_eq_true, if_false] at hq
              exact reopenOthers_mem hq hid hfq haq
          · have hstep1 :=
              find?_updateFirst_some
                (fun p =>
                  { p with
                    chips :=
                      p.chips -
                        (min amt (player.chips + player.currentBet) -
                          player.currentBet)
                    currentBet := min amt (player.chips + player.currentBet)
                    totalBet :=
                      p.totalBet +
                        (min amt (player.chips + player.currentBet) -
                          player.currentBet)
                    hasActed := true })
                (fun p => rfl) hfp2
            have hstep2 := find?_reopenOthers_some hstep1
            rw [reopenF_self (by simpa using hpe)] at hstep2
            by_cases hall :
                (player.chips -
                    (min amt (player.chips + player.currentBet) -
                      player.currentBet) == 0) = true
            · have hstep3 :=
                find?_updateFirst_some
                  (fun p => { p with isAllIn := true })
                  (fun p => rfl) hstep2
              simp only [hall, if_true]
              exact ⟨_, hstep3, rfl, rfl⟩
            · have hall' : (player.chips -
                  (min amt (player.chips + player.currentBet) -
                    player.currentBet) == 0) = false := by simpa using hall
              simp only [hall', Bool.false_eq_true, if_false]
              exact ⟨_, hstep2, rfl, rfl⟩
  · intro player hfp hgt
    have hfp2 : gs.players.find? (fun p => p.id == a.playerId) =
        some player := hfp
    have hpid0 := List.find?_some hfp2
    have hpid : (player.id == a.playerId) = true := hpid0
    have hpe : player.id = a.playerId := by simpa using hpid
    simp only [processAllIn, hfp]
    rw [if_pos hgt]
    constructor
    · intro q hq hid hfq haq
      exact reopenOthers_mem hq hid hfq haq
    · have hstep1 :=
        find?_updateFirst_some
          (fun p =>
            { p with
              chips := (0 : Int)
              currentBet := p.currentBet + player.chips
              totalBet := p.totalBet + player.chips
              isAllIn := true
              hasActed := true })
          (fun p => rfl) hfp2
      have hstep2 := find?_reopenOthers_some hstep1
      rw [reopenF_self (by simpa using hpe)] at hstep2
      exact ⟨_, hstep2, rfl, rfl⟩

theorem c4_witness :
    (c4WitnessAction.type = PlayerAction.Raise ∧
        (validatePlayerAction c4WitnessState c4WitnessAction).isValid = true ∧
        findPlayer c4WitnessState "0" = some c4WitnessPlayer ∧
        c4WitnessPlayer.currentBet + c4WitnessPlayer.chips >
          getHighestCurrentBet c4WitnessState) ∧
      ((∀ q ∈ (processRaise c4WitnessState c4WitnessAction).players,
          q.id ≠ c4WitnessAction.playerId → q.isFolded = false →
            q.isAllIn = false → q.hasActed = false) ∧
        ∃ p',
          findPlayer (processRaise c4WitnessState c4WitnessAction)
              c4WitnessAction.playerId = some p' ∧
            (processRaise c4WitnessState c4WitnessAction).minBet =
              p'.currentBet ∧
            (processRaise c4WitnessState c4WitnessAction).lastRaise =
              p'.currentBet - getHighestCurrentBet c4WitnessState) ∧
      ((∀ q ∈ (processAllIn c4WitnessState c4WitnessAction.playerId).players,
          q.id ≠ c4WitnessAction.playerId → q.isFolded = false →
            q.isAllIn = false → q.hasActed = false) ∧
        ∃ p',
          findPlayer (processAllIn c4WitnessState c4WitnessAction.playerId)
              c4WitnessAction.playerId = some p' ∧
            (processAllIn c4WitnessState c4WitnessAction.playerId).minBet =
              p'.currentBet ∧
            (processAllIn c4WitnessState
                  c4WitnessAction.playerId).lastRaise =
              p'.currentBet - getHighestCurrentBet c4WitnessState) :=
  ⟨⟨rfl, by decide, by decide, by decide⟩,
    (c4_raise_allin_reopen c4WitnessState c4WitnessAction).1 rfl (by decide),
    (c4_raise_allin_reopen c4WitnessState c4WitnessAction).2 c4WitnessPlayer
      (by decide) (by decide)⟩

/-! ## C8: failed validation leaves the state untouched -/

/-- C8 (counterexample): the claim fails when at most one active
player remains.  Here P1 has folded, so P1's `Check` fails validation
("hand is already complete"), yet `processAction` returns
`success = true` (the automatic-win path) and rewrites the state
(round → SHOWDOWN, winners, message). -/
theorem c8_counterexample :
    (pgValidatePlayerAction
          { players :=
              [⟨"0", "P0", [], 1000, 0, 0, false, .DEALER, false, false⟩,
                ⟨"1", "P1", [], 980, 20, 20, true, .BIG_BLIND, true, false⟩]
            deck := []
            pot := 20
            communityCards := []
            currentPlayerIndex := 0
            round := .PREFLOP
            bigBlind := 20
            smallBlind := 10
            minBet := 20
            lastRaise := 20
            message := ""
            winners := []
            tournamentWinner := none
            gameEnded := false }
          ⟨"1", .Check, none⟩).isValid = false ∧
      (processAction
          { players :=
              [⟨"0", "P0", [], 1000, 0, 0, false, .DEALER, false, false⟩,
                ⟨"1", "P1", [], 980, 20, 20, true, .BIG_BLIND, true, false⟩]
            deck := []
            pot := 20
            communityCards := []
            currentPlayerIndex := 0
            round := .PREFLOP
            bigBlind := 20
            smallBlind := 10
            minBet := 20
            lastRaise := 20
            message := ""
            winners := []
            tournamentWinner := none
            gameEnded := false }
          ⟨"1", .Check, none⟩).success = true ∧
      (processAction
          { players :=
              [⟨"0", "P0", [], 1000, 0, 0, false, .DEALER, false, false⟩,
                ⟨"1", "P1", [], 980, 20, 20, true, .BIG_BLIND, true, false⟩]
            deck := []
            pot := 20
            communityCards := []
            currentPlayerIndex := 0
            round := .PREFLOP
            bigBlind := 20
            smallBlind := 10
            minBet := 20
            lastRaise := 20
            message := ""
            winners := []
            tournamentWinner := none
            gameEnded := false }
          ⟨"1", .Check, none⟩).gameState ≠
        { players :=
            [⟨"0", "P0", [], 1000, 0, 0, false, .DEALER, false, false⟩,
              ⟨"1", "P1", [], 980, 20, 20, true, .BIG_BLIND, true, false⟩]
          deck := []
          pot := 20
          communityCards := []
          currentPlayerIndex := 0
          round := .PREFLOP
          bigBlind := 20
          smallBlind := 10
          minBet := 20
          lastRaise := 20
          message := ""
          winners := []
          tournamentWinner := none
          gameEnded := false } := by
  decide

/-- C8 (amended): whenever at least two active players remain (so the
automatic-win short-circuit does not fire), an action that fails
validation makes `processAction` return `success = false` with the
validation's reason and the game state **exactly** as it was — no
player field, pot, round or message changes. -/
theorem c8_amended :
    ∀ (gs : GameState) (a : GameAction),
      2 ≤ (pgActivePlayers gs).length →
      (pgValidatePlayerAction gs a).isValid = false →
      processAction gs a =
        ⟨false, (pgValidatePlayerAction gs a).reason.getD "Invalid action",
          gs⟩ := by
  intro gs a hlen hv
  cases hact : pgActivePlayers gs with
  | nil => rw [hact] at hlen; simp at hlen
  | cons p1 t =>
    cases t with
    | nil => rw [hact] at hlen; simp at hlen
    | cons p2 t2 =>
      simp only [processAction, handleAutomaticWin, hact, hv,
        Bool.not_false, if_true]

theorem c8_witness :
    (2 ≤ (pgActivePlayers c8WitnessState).length ∧
        (pgValidatePlayerAction c8WitnessState
            ⟨"0", .Check, none⟩).isValid = false) ∧
      processAction c8WitnessState ⟨"0", .Check, none⟩ =
        ⟨false,
          (pgValidatePlayerAction c8WitnessState
              ⟨"0", .Check, none⟩).reason.getD "Invalid action",
          c8WitnessState⟩ :=
  ⟨⟨by decide, by decide⟩,
    c8_amended c8WitnessState ⟨"0", .Check, none⟩ (by decide) (by decide)⟩

/-! ## C7: heads-up blinds with viewer seats present -/

/-- C7 (code bug): with exactly 2 non-viewer players plus one viewer
seat, `rotateDealerButton` applies the heads-up rule (dealer +
big blind only, no `SMALL_BLIND` role), but `placeBlinds` tests
`players.length === 2` on the whole seat list — so it finds no small
blind poster and posts **only** the big blind: the pot is 20, nobody
posted 10, and the dealer's `currentBet` stays 0. -/
theorem c7_code_bug :
    (({ players :=
          [⟨"0", "P0", [], 1000, 0, 0, false, .DEALER, false, false⟩,
            ⟨"1", "P1", [], 1000, 0, 0, false, .BIG_BLIND, false, false⟩,
            ⟨"2", "P2", [], 0, 0, 0, false, .VIEWER, false, false⟩]
        deck := []
        pot := 0
        communityCards := []
        currentPlayerIndex := 0
        round := .PREFLOP
        bigBlind := 20
        smallBlind := 10
        minBet := 20
        lastRaise := 20
        message := ""
        winners := []
        tournamentWinner := none
        gameEnded := false } : GameState).players.filter
        (fun p => p.role != .VIEWER)).length = 2 ∧
      ((placeBlinds
          (rotateDealerButton
            { players :=
                [⟨"0", "P0", [], 1000, 0, 0, false, .DEALER, false, false⟩,
                  ⟨"1", "P1", [], 1000, 0, 0, false, .BIG_BLIND, false,
                    false⟩,
                  ⟨"2", "P2", [], 0, 0, 0, false, .VIEWER, false, false⟩]
              deck := []
              pot := 0
              communityCards := []
              currentPlayerIndex := 0
              round := .PREFLOP
              bigBlind := 20
              smallBlind := 10
              minBet := 20
              lastRaise := 20
              message := ""
              winners := []
              tournamentWinner := none
              gameEnded := false })).players.map
          (fun p => (p.role, p.currentBet))) =
        [(Role.BIG_BLIND, 20), (Role.DEALER, 0), (Role.VIEWER, 0)] ∧
      (placeBlinds
          (rotateDealerButton
            { players :=
                [⟨"0", "P0", [], 1000, 0, 0, false, .DEALER, false, false⟩,
                  ⟨"1", "P1", [], 1000, 0, 0, false, .BIG_BLIND, false,
                    false⟩,
                  ⟨"2", "P2", [], 0, 0, 0, false, .VIEWER, false, false⟩]
              deck := []
              pot := 0
              communityCards := []
              currentPlayerIndex := 0
              round := .PREFLOP
              bigBlind := 20
              smallBlind := 10
              minBet := 20
              lastRaise := 20
              message := ""
              winners := []
              tournamentWinner := none
              gameEnded := false })).pot = 20 := by
  decide

/-! ## C6: heads-up first hand after `startNewHand()` -/

/-- C6 (counterexample): in a fresh 2-player game, `startNewHand`
*rotates the button first*, so P1 — not P0 — becomes the dealer and
posts the small blind; P0 posts the big blind.  The computed
`(chips, currentBet)` pairs are `[(980, 20), (990, 10)]`, not the
claimed `[(990, 10), (980, 20)]`. -/
theorem c6_counterexample :
    (startNewHand (initializeGame ["P0", "P1"] [])
          [⟨.A, .SPADES⟩, ⟨.K, .SPADES⟩, ⟨.Q, .SPADES⟩, ⟨.J, .SPADES⟩]).map
        (fun gs' => gs'.players.map (fun p => (p.chips, p.currentBet))) =
      .ok [(980, 20), (990, 10)] ∧
      (Except.ok [(980, 20), (990, 10)] :
          Except String (List (Int × Int))) ≠
        .ok [(990, 10), (980, 20)] := by
  decide

set_option maxHeartbeats 4000000 in
/-- C6 (amended): for a fresh 2-player game (1000 chips each, blinds
10/20) and **any** shuffled deck with at least 4 cards, after
`startNewHand()`: pot = 30; P1 is the dealer with chips 990 and
currentBet 10 (the small blind); P0 is the big blind with chips 980
and currentBet 20; both hold exactly 2 hole cards; the round is
PREFLOP; and the first player to act is P1 — the dealer acts first
preflop heads-up (the roles are the mirror image of the claim, which
assumed the constructor's dealer P0 would keep the button through the
first `startNewHand`). -/
theorem c6_amended :
    ∀ deck : List Card, 4 ≤ deck.length →
      ∃ gs', startNewHand (initializeGame ["P0", "P1"] []) deck = .ok gs' ∧
        ∃ p0 p1, gs'.players = [p0, p1] ∧
          p0.chips = 980 ∧ p0.currentBet = 20 ∧ p0.role = .BIG_BLIND ∧
          p0.hand.length = 2 ∧
          p1.chips = 990 ∧ p1.currentBet = 10 ∧ p1.role = .DEALER ∧
          p1.hand.length = 2 ∧
          gs'.pot = 30 ∧ gs'.round = .PREFLOP ∧
          gs'.currentPlayerIndex = 1 := by
  intro deck hlen
  match deck with
  | c1 :: c2 :: c3 :: c4 :: t =>
    exact
      ⟨{ players :=
            [⟨"0", "P0", [c1, c3], 980, 20, 20, false, .BIG_BLIND, false,
                false⟩,
              ⟨"1", "P1", [c2, c4], 990, 10, 10, false, .DEALER, false,
                false⟩],
          deck := t, pot := 30, communityCards := [],
          currentPlayerIndex := 1, round := .PREFLOP, bigBlind := 20,
          smallBlind := 10, minBet := 20, lastRaise := 20,
          message := "Hole cards dealt", winners := [],
          tournamentWinner := none, gameEnded := false },
        by with_unfolding_all rfl,
        ⟨"0", "P0", [c1, c3], 980, 20, 20, false, .BIG_BLIND, false, false⟩,
        ⟨"1", "P1", [c2, c4], 990, 10, 10, false, .DEALER, false, false⟩,
        rfl, rfl, rfl, rfl, rfl, rfl, rfl, rfl, rfl, rfl, rfl, rfl⟩
  | [] => simp at hlen
  | [c1] => simp at hlen
  | [c1, c2] => simp at hlen
  | [c1, c2, c3] => simp at hlen

theorem c6_witness :
    4 ≤ ([⟨.A, .SPADES⟩, ⟨.K, .SPADES⟩, ⟨.Q, .SPADES⟩, ⟨.J, .SPADES⟩] :
        List Card).length ∧
      ∃ gs',
        startNewHand (initializeGame ["P0", "P1"] [])
            [⟨.A, .SPADES⟩, ⟨.K, .SPADES⟩, ⟨.Q, .SPADES⟩, ⟨.J, .SPADES⟩] =
          .ok gs' ∧
        ∃ p0 p1, gs'.players = [p0, p1] ∧
          p0.chips = 980 ∧ p0.currentBet = 20 ∧ p0.role = .BIG_BLIND ∧
          p0.hand.length = 2 ∧
          p1.chips = 990 ∧ p1.currentBet = 10 ∧ p1.role = .DEALER ∧
          p1.hand.length = 2 ∧
          gs'.pot = 30 ∧ gs'.round = .PREFLOP ∧
          gs'.currentPlayerIndex = 1 :=
  ⟨by decide,
    c6_amended [⟨.A, .SPADES⟩, ⟨.K, .SPADES⟩, ⟨.Q, .SPADES⟩, ⟨.J, .SPADES⟩]
      (by decide)⟩

/-! ## C5: the wheel straight -/

/-- A list of naturals that is a permutation of a strictly descending
target is sorted to exactly that target by `sortDescNat`. -/
theorem sortDescNat_eq_of_perm {l target : List Nat} (hp : l.Perm target)
    (hs : List.Sorted (fun a b : Nat => b ≤ a) target) :
    sortDescNat l = target := by
  haveI : IsTotal ℕ (fun a b : Nat => b ≤ a) := ⟨fun a b => le_total b a⟩
  haveI : IsTrans ℕ (fun a b : Nat => b ≤ a) :=
    ⟨fun a b c h1 h2 => le_trans h2 h1⟩
  haveI : IsAntisymm ℕ (fun a b : Nat => b ≤ a) :=
    ⟨fun a b h1 h2 => le_antisymm h2 h1⟩
  exact List.eq_of_perm_of_sorted
    ((List.perm_insertionSort _ l).trans hp)
    (List.sorted_insertionSort _ l) hs

/-- C5: every 5-card hand whose ranks are A,2,3,4,5 (not all of one
suit) evaluates to STRAIGHT with tiebreaker `[5]`; it compares
strictly below every (non-flush) 6-high straight; and its tiebreaker
is not the ace-as-14 one. -/
theorem c5_wheel :
    ∀ cs : List Card,
      (cs.map (fun c => rankToValue c.rank)).Perm [14, 5, 4, 3, 2] →
      allSameSuit cs = false →
      evaluateFive cs = ⟨.STRAIGHT, [5]⟩ ∧
        (∀ ds : List Card,
          (ds.map (fun c => rankToValue c.rank)).Perm [6, 5, 4, 3, 2] →
          allSameSuit ds = false →
          compareHands (evaluateFive cs) (evaluateFive ds) < 0) ∧
        (evaluateFive cs).tiebreaker ≠ [14] := by
  intro cs hperm hflush
  have hsort : sortDescNat (cs.map (fun c => rankToValue c.rank)) =
      [14, 5, 4, 3, 2] := sortDescNat_eq_of_perm hperm (by decide)
  have h1 : evaluateFive cs = ⟨.STRAIGHT, [5]⟩ := by
    simp only [evaluateFive, hsort, hflush]
    decide
  refine ⟨h1, ?_, by rw [h1]; decide⟩
  intro ds hperm6 hflush6
  have hsort6 : sortDescNat (ds.map (fun c => rankToValue c.rank)) =
      [6, 5, 4, 3, 2] := sortDescNat_eq_of_perm hperm6 (by decide)
  have h2 : evaluateFive ds = ⟨.STRAIGHT, [6]⟩ := by
    simp only [evaluateFive, hsort6, hflush6]
    decide
  rw [h1, h2]
  decide

theorem c5_witness :
    (((([⟨.A, .SPADES⟩, ⟨.R2, .HEARTS⟩, ⟨.R3, .DIAMONDS⟩, ⟨.R4, .CLUBS⟩,
            ⟨.R5, .SPADES⟩] : List Card).map
          (fun c => rankToValue c.rank)).Perm [14, 5, 4, 3, 2]) ∧
        allSameSuit
            [⟨.A, .SPADES⟩, ⟨.R2, .HEARTS⟩, ⟨.R3, .DIAMONDS⟩, ⟨.R4, .CLUBS⟩,
              ⟨.R5, .SPADES⟩] = false) ∧
      (evaluateFive
          [⟨.A, .SPADES⟩, ⟨.R2, .HEARTS⟩, ⟨.R3, .DIAMONDS⟩, ⟨.R4, .CLUBS⟩,
            ⟨.R5, .SPADES⟩] = ⟨.STRAIGHT, [5]⟩ ∧
        (∀ ds : List Card,
          (ds.map (fun c => rankToValue c.rank)).Perm [6, 5, 4, 3, 2] →
          allSameSuit ds = false →
          compareHands
              (evaluateFive
                [⟨.A, .SPADES⟩, ⟨.R2, .HEARTS⟩, ⟨.R3, .DIAMONDS⟩,
                  ⟨.R4, .CLUBS⟩, ⟨.R5, .SPADES⟩])
              (evaluateFive ds) < 0) ∧
        (evaluateFive
            [⟨.A, .SPADES⟩, ⟨.R2, .HEARTS⟩, ⟨.R3, .DIAMONDS⟩, ⟨.R4, .CLUBS⟩,
              ⟨.R5, .SPADES⟩]).tiebreaker ≠ [14]) :=
  ⟨⟨by decide, by decide⟩,
    c5_wheel
      [⟨.A, .SPADES⟩, ⟨.R2, .HEARTS⟩, ⟨.R3, .DIAMONDS⟩, ⟨.R4, .CLUBS⟩,
        ⟨.R5, .SPADES⟩] (by decide) (by decide)⟩

/-! ## C10: card serialization round-trip -/

set_option maxHeartbeats 1000000 in
theorem splitRank_sound {l : List Char} {r : Rank} {rest : List Char}
    (h : splitRank l = some (r, rest)) :
    l = (rankStr r).data ++ rest := by
  cases l with
  | nil => exact Option.noConfusion h
  | cons ch tail =>
    rw [splitRank] at h
    by_cases hc1 : ch = '2'
    · rw [if_pos hc1] at h
      injection h with h1
      injection h1 with h2 h3
      subst h2
      subst h3
      subst hc1
      rfl
    · rw [if_neg hc1] at h
      by_cases hc2 : ch = '3'
      · rw [if_pos hc2] at h
        injection h with h1
        injection h1 with h2 h3
        subst h2
        subst h3
        subst hc2
        rfl
      · rw [if_neg hc2] at h
        by_cases hc3 : ch = '4'
        · rw [if_pos hc3] at h
          injection h with h1
          injection h1 with h2 h3
          subst h2
          subst h3
          subst hc3
          rfl
        · rw [if_neg hc3] at h
          by_cases hc4 : ch = '5'
          · rw [if_pos hc4] at h
            injection h with h1
            injection h1 with h2 h3
            subst h2
            subst h3
            subst hc4
            rfl
          · rw [if_neg hc4] at h
            by_cases hc5 : ch = '6'
            · rw [if_pos hc5] at h
              injection h with h1
              injection h1 with h2 h3
              subst h2
              subst h3
              subst hc5
              rfl
            · rw [if_neg hc5] at h
              by_cases hc6 : ch = '7'
              · rw [if_pos hc6] at h
                injection h with h1
                injection h1 with h2 h3
                subst h2
                subst h3
                subst hc6
                rfl
              · rw [if_neg hc6] at h
                by_cases hc7 : ch = '8'
                · rw [if_pos hc7] at h
                  injection h with h1
                  injection h1 with h2 h3
                  subst h2
                  subst h3
                  subst hc7
                  rfl
                · rw [if_neg hc7] at h
                  by_cases hc8 : ch = '9'
                  · rw [if_pos hc8] at h
                    injection h with h1
                    injection h1 with h2 h3
                    subst h2
                    subst h3
                    subst hc8
                    rfl
                  · rw [if_neg hc8] at h
                    by_cases hc9 : ch = '1'
                    · rw [if_pos hc9] at h
                      cases tail with
                      | nil => exact Option.noConfusion h
                      | cons c2 tail2 =>
                        rw [splitTen] at h
                        by_cases hz : c2 = '0'
                        · rw [if_pos hz] at h
                          injection h with h1
                          injection h1 with h2 h3
                          subst h2
                          subst h3
                          subst hc9
                          subst hz
                          rfl
                        · rw [if_neg hz] at h
                          exact Option.noConfusion h
                    · rw [if_neg hc9] at h
                      by_cases hc10 : ch = 'J'
                      · rw [if_pos hc10] at h
                        injection h with h1
                        injection h1 with h2 h3
                        subst h2
                        subst h3
                        subst hc10
                        rfl
                      · rw [if_neg hc10] at h
                        by_cases hc11 : ch = 'Q'
                        · rw [if_pos hc11] at h
                          injection h with h1
                          injection h1 with h2 h3
                          subst h2
                          subst h3
                          subst hc11
                          rfl
                        · rw [if_neg hc11] at h
                          by_cases hc12 : ch = 'K'
                          · rw [if_pos hc12] at h
                            injection h with h1
                            injection h1 with h2 h3
                            subst h2
                            subst h3
                            subst hc12
                            rfl
                          · rw [if_neg hc12] at h
                            by_cases hc13 : ch = 'A'
                            · rw [if_pos hc13] at h
                              injection h with h1
                              injection h1 with h2 h3
                              subst h2
                              subst h3
                              subst hc13
                              rfl
                            · rw [if_neg hc13] at h
                              all_goals exact Option.noConfusion h

theorem parseSuit_sound {rest : List Char} {su : Suit}
    (h : parseSuit rest = some su) : rest = (suitStr su).data := by
  unfold parseSuit at h
  split_ifs at h with h1 h2 h3 h4
  · injection h with h5
    subst h5
    exact h1
  · injection h with h5
    subst h5
    exact h2
  · injection h with h5
    subst h5
    exact h3
  · injection h with h5
    subst h5
    exact h4

/-- Parsing succeeds only on exactly the canonical code of the parsed
card. -/
theorem stringToCard_inv :
    ∀ (s : String) (c : Card), stringToCard s = some c →
      cardToString c = s := by
  intro s c h
  unfold stringToCard at h
  split at h
  · exact Option.noConfusion h
  · rename_i r rest hsp
    split at h
    · exact Option.noConfusion h
    · rename_i su hps
      injection h with h1
      subst h1
      have hd1 := splitRank_sound hsp
      have hd2 := parseSuit_sound hps
      have hdata : (cardToString ⟨r, su⟩).data = s.data := by
        rw [cardToString, String.data_append, hd1, hd2]
      cases s with
      | mk data =>
        cases hcs : cardToString ⟨r, su⟩ with
        | mk data2 =>
          rw [hcs] at hdata
          exact congrArg String.mk (by simpa using hdata)

/-- C10: serializing any card with `cardToString` and parsing it back
with `stringToCard` yields the same card, and `stringToCard` returns
`null`/`none` (rather than throwing) on every string that is not a
canonical card code. -/
theorem c10_roundtrip :
    (∀ c : Card, stringToCard (cardToString c) = some c) ∧
      (∀ (s : String) (c : Card), stringToCard s = some c →
        cardToString c = s) ∧
      (∀ s : String, (∀ c : Card, s ≠ cardToString c) →
        stringToCard s = none) := by
  refine ⟨by decide, stringToCard_inv, ?_⟩
  intro s hs
  cases h : stringToCard s with
  | none => rfl
  | some c => exact absurd (stringToCard_inv s c h).symm (hs c)

theorem c10_witness :
    (∀ c : Card, ("XPADES" : String) ≠ cardToString c) ∧
      stringToCard "XPADES" = none :=
  ⟨by decide, c10_roundtrip.2.2 "XPADES" (by decide)⟩

/-! ## C2: side pots sum to the pot -/

/-- The loop of `createAllPots` never overdraws: the built pots plus
the final `remainingPot` account exactly for the starting
`remainingPot`, which never goes negative. -/
theorem potsLoop_sum :
    ∀ (rest : List Player) (lvl rem : Int) (idx : Nat) (fl : Bool),
      0 ≤ rem →
      sumPotAmounts (potsLoop rest lvl rem idx fl).1 +
          (potsLoop rest lvl rem idx fl).2 = rem ∧
        0 ≤ (potsLoop rest lvl rem idx fl).2 := by
  intro rest
  induction rest with
  | nil =>
    intro lvl rem idx fl h
    simpa [potsLoop, sumPotAmounts] using h
  | cons p tail ih =>
    intro lvl rem idx fl h
    simp only [potsLoop]
    by_cases h1 : (p.totalBet > lvl ∧ rem > 0)
    · rw [if_pos h1]
      by_cases h2 :
          (min ((p.totalBet - lvl) * (1 + (tail.length : Int))) rem > 0 ∧
            (p :: tail).filter (fun q => !q.isFolded) ≠ [])
      · rw [if_pos h2]
        have hle : min ((p.totalBet - lvl) * (1 + (tail.length : Int))) rem ≤
            rem := min_le_right _ _
        have hrem' : 0 ≤
            rem - min ((p.totalBet - lvl) * (1 + (tail.length : Int))) rem :=
          by omega
        have := ih p.totalBet
          (rem - min ((p.totalBet - lvl) * (1 + (tail.length : Int))) rem)
          (idx + 1) false hrem'
        simp only [sumPotAmounts, List.map_cons, List.sum_cons] at this ⊢
        omega
      · rw [if_neg h2]
        exact ih p.totalBet rem idx false h
    · rw [if_neg h1]
      exact ih lvl rem idx false h

/-- With a positive first bet level, a positive remaining pot and some
non-folded contributor, the loop creates at least one pot. -/
theorem potsLoop_ne_nil {p : Player} {tail : List Player} {rem : Int}
    {idx : Nat} {fl : Bool} (hbet : 0 < p.totalBet) (hrem : 0 < rem)
    (helig : (p :: tail).filter (fun q => !q.isFolded) ≠ []) :
    (potsLoop (p :: tail) 0 rem idx fl).1 ≠ [] := by
  simp only [potsLoop]
  rw [if_pos ⟨hbet, hrem⟩]
  have hcalc : 0 < (p.totalBet - 0) * (1 + (tail.length : Int)) := by
    apply mul_pos
    · omega
    · have : (0 : Int) ≤ tail.length := Int.ofNat_nonneg _
      omega
  rw [if_pos ⟨lt_min hcalc hrem, helig⟩]
  simp

/-- C2 (amended): whenever some non-folded player has `totalBet > 0`
and the pot is positive, the pots built by `createAllPots` sum exactly
to `gameState.pot` — for any distribution of `totalBet` values.  In
particular, for totalBet = {A:100, B:200, C:300}, pot = 600, nobody
folded, it returns exactly three pots of 300 (A,B,C), 200 (B,C) and
100 (C).  (The claim's weaker hypothesis — some player with
`totalBet > 0`, possibly folded — is refuted by `c2_counterexample`.) -/
theorem c2_amended :
    ∀ gs : GameState,
      (∃ p ∈ gs.players, 0 < p.totalBet ∧ p.isFolded = false) →
      0 < gs.pot →
      sumPotAmounts (createAllPots gs) = gs.pot ∧
        ((createAllPots
              { players :=
                  [⟨"0", "A", [], 0, 0, 100, false, .NO_ROLE, true, true⟩,
                    ⟨"1", "B", [], 0, 0, 200, false, .NO_ROLE, true, true⟩,
                    ⟨"2", "C", [], 0, 0, 300, false, .NO_ROLE, true, true⟩]
                deck := []
                pot := 600
                communityCards := []
                currentPlayerIndex := 0
                round := .RIVER
                bigBlind := 20
                smallBlind := 10
                minBet := 20
                lastRaise := 20
                message := ""
                winners := []
                tournamentWinner := none
                gameEnded := false }).map
            (fun pot => (pot.amount, pot.eligiblePlayers.map Player.id))) =
          [(300, ["0", "1", "2"]), (200, ["1", "2"]), (100, ["2"])] := by
  intro gs hex hpot
  refine ⟨?_, by decide⟩
  obtain ⟨p, hmem, hbet, hnf⟩ := hex
  unfold createAllPots
  have hmemA : p ∈ gs.players.filter (fun q => q.totalBet > 0) := by
    simp only [List.mem_filter]
    exact ⟨hmem, by simpa using hbet⟩
  have hne : gs.players.filter (fun q => q.totalBet > 0) ≠ [] :=
    List.ne_nil_of_mem hmemA
  have hcond :
      ¬((gs.players.filter (fun q => q.totalBet > 0)).isEmpty = true ∨
        (gs.pot == 0) = true) := by
    rintro (hc | hc)
    · exact hne (List.isEmpty_iff.mp hc)
    · rw [beq_iff_eq] at hc
      omega
  rw [if_neg hcond]
  have hperm :=
    List.perm_insertionSort (fun a b : Player => a.totalBet ≤ b.totalBet)
      (gs.players.filter (fun q => q.totalBet > 0))
  have hpmem : p ∈
      List.insertionSort (fun a b : Player => a.totalBet ≤ b.totalBet)
        (gs.players.filter (fun q => q.totalBet > 0)) :=
    hperm.mem_iff.mpr hmemA
  cases hs :
      List.insertionSort (fun a b : Player => a.totalBet ≤ b.totalBet)
        (gs.players.filter (fun q => q.totalBet > 0)) with
  | nil => rw [hs] at hpmem; simp at hpmem
  | cons q tailq =>
    have hqmem : q ∈ gs.players.filter (fun w => w.totalBet > 0) := by
      have : q ∈
          List.insertionSort (fun a b : Player => a.totalBet ≤ b.totalBet)
            (gs.players.filter (fun w => w.totalBet > 0)) := by
        rw [hs]; exact List.mem_cons_self ..
      exact hperm.mem_iff.mp this
    have hqbet : 0 < q.totalBet := by
      have := (List.mem_filter.mp hqmem).2
      simpa using this
    have helig : (q :: tailq).filter (fun w => !w.isFolded) ≠ [] := by
      have hpq : p ∈ q :: tailq := by rw [← hs]; exact hpmem
      have : p ∈ (q :: tailq).filter (fun w => !w.isFolded) := by
        simp only [List.mem_filter]
        exact ⟨hpq, by simp [hnf]⟩
      exact List.ne_nil_of_mem this
    have hloop := potsLoop_sum (q :: tailq) 0 gs.pot 0 true (le_of_lt hpot)
    have hnn := @potsLoop_ne_nil q tailq gs.pot 0 true hqbet hpot helig
    cases hres : (potsLoop (q :: tailq) 0 gs.pot 0 true).1 with
    | nil => exact absurd hres hnn
    | cons first restp =>
      rw [hres] at hloop
      simp only [hres]
      split_ifs with hrm
      · simp only [sumPotAmounts, List.map_cons, List.sum_cons] at hloop ⊢
        omega
      · simp only [sumPotAmounts, List.map_cons, List.sum_cons] at hloop ⊢
        omega

/-- C2 (counterexample): with the claim's hypotheses alone — some
player with `totalBet > 0` and a positive pot — the sum can differ
from the pot: when every contributor has folded, each pot slice has no
eligible players, nothing is pushed, and `createAllPots` returns `[]`
(sum 0) although the pot is 100. -/
theorem c2_counterexample :
    sumPotAmounts
        (createAllPots
          { players :=
              [⟨"0", "A", [], 0, 0, 100, true, .NO_ROLE, true, false⟩]
            deck := []
            pot := 100
            communityCards := []
            currentPlayerIndex := 0
            round := .RIVER
            bigBlind := 20
            smallBlind := 10
            minBet := 20
            lastRaise := 20
            message := ""
            winners := []
            tournamentWinner := none
            gameEnded := false }) ≠
      GameState.pot
        { players :=
            [⟨"0", "A", [], 0, 0, 100, true, .NO_ROLE, true, false⟩]
          deck := []
          pot := 100
          communityCards := []
          currentPlayerIndex := 0
          round := .RIVER
          bigBlind := 20
          smallBlind := 10
          minBet := 20
          lastRaise := 20
          message := ""
          winners := []
          tournamentWinner := none
          gameEnded := false } := by
  decide

theorem c2_witness :
    ((∃ p ∈ c2WitnessState.players, 0 < p.totalBet ∧ p.isFolded = false) ∧
        0 < c2WitnessState.pot) ∧
      sumPotAmounts (createAllPots c2WitnessState) = c2WitnessState.pot :=
  ⟨⟨by decide, by decide⟩,
    (c2_amended c2WitnessState (by decide) (by decide)).1⟩

/-! ## C3: pot distribution -/

theorem compareTie_self : ∀ l : List Nat, compareTie l l = 0 := by
  intro l
  induction l with
  | nil => rfl
  | cons a as ih => simp [compareTie, ih]

theorem compareHands_self (e : EvaluatedHand) : compareHands e e = 0 := by
  simp [compareHands, compareTie_self]

theorem getCombinations_ne_nil :
    ∀ (l : List Card) (k : Nat), k ≤ l.length → getCombinations l k ≠ [] := by
  intro l
  induction l with
  | nil =>
    intro k hk
    have hk0 : k = 0 := by simpa using hk
    subst hk0
    simp [getCombinations]
  | cons a rest ih =>
    intro k hk
    cases k with
    | zero => simp [getCombinations]
    | succ k =>
      simp only [getCombinations]
      intro hcon
      rcases List.append_eq_nil.mp hcon with ⟨h1, h2⟩
      by_cases hle : k + 1 ≤ rest.length
      · exact ih (k + 1) hle h1
      · have hk' : k ≤ rest.length := by
          simp only [List.length_cons] at hk
          omega
        have := ih k hk'
        simp only [List.map_eq_nil_iff] at h2
        exact this h2

theorem evaluateBestHand_ok {cards : List Card} (h5 : 5 ≤ cards.length)
    (h7 : cards.length ≤ 7) (hnd : cards.Nodup) :
    ∃ e, evaluateBestHand cards = .ok e := by
  unfold evaluateBestHand
  rw [if_neg (by omega), if_neg (by omega), if_neg (by simpa using hnd)]
  cases hc : getCombinations cards 5 with
  | nil => exact absurd hc (getCombinations_ne_nil cards 5 (by omega))
  | cons c cs => exact ⟨_, rfl⟩

theorem showdownEval_ok {cc : List Card} :
    ∀ (ps : List Player),
      (3 ≤ cc.length) → (cc.length ≤ 5) →
      (∀ p ∈ ps, p.hand.length = 2 ∧ (p.hand ++ cc).Nodup) →
      ∃ results, showdownEval cc ps = .ok results ∧
        results.map SHOWDOWNResult.player = ps := by
  intro ps hcc3 hcc5
  induction ps with
  | nil => intro _; exact ⟨[], rfl, rfl⟩
  | cons p rest ih =>
    intro hh
    obtain ⟨hlen, hnd⟩ := hh p (List.mem_cons_self ..)
    obtain ⟨results, hres, hmap⟩ :=
      ih (fun q hq => hh q (List.mem_cons_of_mem _ hq))
    obtain ⟨e, he⟩ := @evaluateBestHand_ok (p.hand ++ cc)
      (by simp [hlen]; omega) (by simp [hlen]; omega) hnd
    refine ⟨SHOWDOWNResult.mk p e :: results, ?_, by simp [hmap]⟩
    simp only [showdownEval, hlen]
    rw [if_neg (by omega)]
    rw [he, hres]
    rfl

theorem foldl_best_mem :
    ∀ (rest : List SHOWDOWNResult) (acc : EvaluatedHand),
      (rest.foldl
          (fun b r => if compareHands r.evaluation b > 0 then r.evaluation
                      else b) acc = acc) ∨
        ∃ r ∈ rest,
          rest.foldl
              (fun b r => if compareHands r.evaluation b > 0 then
                  r.evaluation
                else b) acc = r.evaluation := by
  intro rest
  induction rest with
  | nil => intro acc; exact Or.inl rfl
  | cons x xs ih =>
    intro acc
    simp only [List.foldl_cons]
    rcases ih (if compareHands x.evaluation acc > 0 then x.evaluation
        else acc) with h | ⟨r, hr, heq⟩
    · by_cases hc : compareHands x.evaluation acc > 0
      · right
        refine ⟨x, List.mem_cons_self .., ?_⟩
        rw [h, if_pos hc]
      · left
        rw [h, if_neg hc]
    · right
      exact ⟨r, List.mem_cons_of_mem _ hr, heq⟩

theorem SHOWDOWN_ok {players : List Player} {cc : List Card}
    (hcc3 : 3 ≤ cc.length) (hcc5 : cc.length ≤ 5)
    (hcont : players.filter (fun p => !p.isFolded) ≠ [])
    (hhands : ∀ p ∈ players.filter (fun p => !p.isFolded),
      p.hand.length = 2 ∧ (p.hand ++ cc).Nodup) :
    ∃ winners, SHOWDOWN players cc = .ok winners ∧ winners ≠ [] ∧
      ∀ r ∈ winners, r.player ∈ players.filter (fun p => !p.isFolded) := by
  obtain ⟨results, hres, hmap⟩ :=
    showdownEval_ok (players.filter (fun p => !p.isFolded)) hcc3 hcc5 hhands
  unfold SHOWDOWN
  rw [if_neg (by
    simp only [Bool.or_eq_true, decide_eq_true_eq]
    omega)]
  rw [if_neg (by simpa [List.isEmpty_iff] using hcont)]
  rw [hres]
  cases results with
  | nil => exact absurd hmap.symm hcont
  | cons r0 rest =>
    rcases foldl_best_mem rest r0.evaluation with hbest | ⟨r, hr, hbest⟩
    · refine ⟨_, rfl, ?_, ?_⟩
      · have : r0 ∈ (r0 :: rest).filter
            (fun r => compareHands r.evaluation
              (rest.foldl
                (fun b r => if compareHands r.evaluation b > 0 then
                    r.evaluation
                  else b) r0.evaluation) == 0) := by
          rw [List.mem_filter]
          refine ⟨List.mem_cons_self .., ?_⟩
          rw [hbest]
          simp [compareHands_self]
        exact List.ne_nil_of_mem this
      · intro r hrmem
        have := (List.mem_filter.mp hrmem).1
        rw [← hmap]
        exact List.mem_map_of_mem _ this
    · refine ⟨_, rfl, ?_, ?_⟩
      · have : r ∈ (r0 :: rest).filter
            (fun w => compareHands w.evaluation
              (rest.foldl
                (fun b w => if compareHands w.evaluation b > 0 then
                    w.evaluation
                  else b) r0.evaluation) == 0) := by
          rw [List.mem_filter]
          refine ⟨List.mem_cons_of_mem _ hr, ?_⟩
          rw [hbest]
          simp [compareHands_self]
        exact List.ne_nil_of_mem this
      · intro w hwmem
        have := (List.mem_filter.mp hwmem).1
        rw [← hmap]
        exact List.mem_map_of_mem _ this

theorem mem_mapWithIndex {f : Nat → SHOWDOWNResult → PotDistribution}
    {d : PotDistribution} :
    ∀ {i : Nat} {ws : List SHOWDOWNResult}, d ∈ mapWithIndex f i ws →
      ∃ j r, r ∈ ws ∧ d = f j r := by
  intro i ws
  induction ws generalizing i with
  | nil => intro h; simp [mapWithIndex] at h
  | cons w rest ih =>
    intro h
    rcases List.mem_cons.mp h with h1 | h1
    · exact ⟨i, w, List.mem_cons_self .., h1⟩
    · obtain ⟨j, r, hr, hd⟩ := ih h1
      exact ⟨j, r, List.mem_cons_of_mem _ hr, hd⟩

theorem mapWithIndex_player_mem {f : Nat → SHOWDOWNResult → PotDistribution}
    {i : Nat} {ws : List SHOWDOWNResult} {d : PotDistribution}
    (h : d ∈ mapWithIndex f i ws) : ∃ j r, r ∈ ws ∧ d = f j r :=
  mem_mapWithIndex h

/-- Sum of the per-winner shares produced by `distributeSinglePot`'s
indexed map: `share` each, plus one extra chip for the first
`rem` indices. -/
theorem mapWithIndex_share_sum (share rem : Int) (potId : String) :
    ∀ (ws : List SHOWDOWNResult) (i : Nat),
      ((mapWithIndex
            (fun j r =>
              ⟨r.player.id, share + (if (j : Int) < rem then 1 else 0),
                potId, some r.evaluation.rank⟩)
            i ws).map PotDistribution.amount).sum =
        ws.length * share + max 0 (min (rem - i) ws.length) := by
  intro ws
  induction ws with
  | nil =>
    intro i
    simp only [mapWithIndex, List.map_nil, List.sum_nil, List.length_nil]
    omega
  | cons w rest ih =>
    intro i
    simp only [mapWithIndex, List.map_cons, List.sum_cons, ih (i + 1),
      List.length_cons]
    push_cast
    have hmul : ((rest.length : Int) + 1) * share =
        (rest.length : Int) * share + share := by ring
    rw [hmul]
    by_cases hi : (i : Int) < rem
    · rw [if_pos hi]
      omega
    · rw [if_neg hi]
      omega

theorem map_id_updateFirst (f : Player → Player)
    (hf : ∀ p, (f p).id = p.id) (ps : List Player) (pid : String) :
    (updateFirst ps pid f).map Player.id = ps.map Player.id := by
  induction ps with
  | nil => rfl
  | cons p rest ih =>
    by_cases hp : (p.id == pid) = true
    · simp [updateFirst, hp, hf]
    · have hp' : (p.id == pid) = false := by simpa using hp
      simp [updateFirst, hp', ih]

theorem find?_id_isSome {ps : List Player} {pid : String}
    (h : pid ∈ ps.map Player.id) :
    ∃ q, ps.find? (fun p => p.id == pid) = some q := by
  induction ps with
  | nil => simp at h
  | cons p rest ih =>
    by_cases hp : (p.id == pid) = true
    · exact ⟨p, by simp [List.find?_cons, hp]⟩
    · have hp' : (p.id == pid) = false := by simpa using hp
      have h2 : pid ∈ rest.map Player.id := by
        rcases List.mem_map.mp h with ⟨q, hq, hqid⟩
        rcases List.mem_cons.mp hq with rfl | hq2
        · exact absurd (by simp [hqid]) hp
        · rw [← hqid]
          exact List.mem_map_of_mem _ hq2
      obtain ⟨q, hq⟩ := ih h2
      exact ⟨q, by simp [List.find?_cons, hp', hq]⟩

theorem addChips_spec {gs : GameState} {pid : String} (amt : Int)
    (hmem : pid ∈ gs.players.map Player.id) :
    chipsSum (addChips gs pid amt).players = chipsSum gs.players + amt ∧
      (addChips gs pid amt).players.map Player.id =
        gs.players.map Player.id ∧
      (addChips gs pid amt).communityCards = gs.communityCards ∧
      (addChips gs pid amt).pot = gs.pot := by
  obtain ⟨q, hq⟩ := find?_id_isSome hmem
  refine ⟨?_,
    map_id_updateFirst (fun p => { p with chips := p.chips + amt })
      (fun p => rfl) gs.players pid, rfl, rfl⟩
  show chipsSum (updateFirst gs.players pid _) = _
  rw [chipsSum_updateFirst_of_find _ hq]
  ring

/-- Folding `addChips` over a list of distributions adds exactly the
distributed amounts to the players' chips, preserving ids, community
cards and the pot field. -/
theorem foldl_addChips_spec :
    ∀ (ds : List PotDistribution) (gs : GameState),
      (∀ d ∈ ds, d.playerId ∈ gs.players.map Player.id) →
      chipsSum
          ((ds.foldl (fun g d => addChips g d.playerId d.amount)
              gs).players) =
        chipsSum gs.players + sumDistributed ds ∧
        (ds.foldl (fun g d => addChips g d.playerId d.amount)
            gs).players.map Player.id = gs.players.map Player.id ∧
        (ds.foldl (fun g d => addChips g d.playerId d.amount)
            gs).communityCards = gs.communityCards ∧
        (ds.foldl (fun g d => addChips g d.playerId d.amount)
            gs).pot = gs.pot := by
  intro ds
  induction ds with
  | nil =>
    intro gs _
    simp [sumDistributed]
  | cons d rest ih =>
    intro gs hmem
    obtain ⟨h1, h2, h3, h4⟩ :=
      addChips_spec d.amount (hmem d (List.mem_cons_self ..))
    have hmem2 : ∀ e ∈ rest,
        e.playerId ∈ (addChips gs d.playerId d.amount).players.map
          Player.id := by
      intro e he
      rw [h2]
      exact hmem e (List.mem_cons_of_mem _ he)
    obtain ⟨g1, g2, g3, g4⟩ := ih (addChips gs d.playerId d.amount) hmem2
    simp only [List.foldl_cons]
    refine ⟨?_, by rw [g2, h2], by rw [g3, h3], by rw [g4, h4]⟩
    rw [g1, h1]
    simp [sumDistributed]
    ring

/-- Full specification of `distributeSinglePot` for a pot with a
nonnegative amount and at least one eligible non-folded player, over a
3-5 card board, with well-formed hole cards: the call succeeds, it
distributes (into chips, and in its reported distributions) exactly
`pot.amount`, an uncontested pot goes whole to its only eligible
player, and split shares differ by at most one chip. -/
theorem singlePot_spec (gs : GameState) (pot : Pot)
    (hcc3 : 3 ≤ gs.communityCards.length)
    (hcc5 : gs.communityCards.length ≤ 5)
    (hamt : 0 ≤ pot.amount)
    (helig : pot.eligiblePlayers.filter (fun p => !p.isFolded) ≠ [])
    (hhands : ∀ p ∈ pot.eligiblePlayers.filter (fun p => !p.isFolded),
      p.hand.length = 2 ∧ (p.hand ++ gs.communityCards).Nodup)
    (hids : ∀ p ∈ pot.eligiblePlayers.filter (fun p => !p.isFolded),
      p.id ∈ gs.players.map Player.id) :
    ∃ pr gs2, distributeSinglePot gs pot = .ok (pr, gs2) ∧
      pr.totalDistributed = pot.amount ∧
      sumDistributed pr.distributions = pot.amount ∧
      (∀ d1 ∈ pr.distributions, ∀ d2 ∈ pr.distributions,
        d1.amount - d2.amount ≤ 1) ∧
      (∀ w, pot.eligiblePlayers.filter (fun p => !p.isFolded) = [w] →
        pr.distributions.map (fun d => (d.playerId, d.amount)) =
          [(w.id, pot.amount)]) ∧
      chipsSum gs2.players = chipsSum gs.players + pot.amount ∧
      gs2.players.map Player.id = gs.players.map Player.id ∧
      gs2.communityCards = gs.communityCards ∧
      gs2.pot = gs.pot := by
  cases hfilter : pot.eligiblePlayers.filter (fun p => !p.isFolded) with
  | nil => exact absurd hfilter helig
  | cons w1 tl =>
    cases tl with
    | nil =>
      obtain ⟨h1, h2, h3, h4⟩ := @addChips_spec gs w1.id
        pot.amount (hids w1 (by rw [hfilter]; exact List.mem_cons_self ..))
      refine ⟨⟨[⟨w1.id, pot.amount, pot.id, none⟩], pot.amount,
          w1.name ++ " wins " ++ toString pot.amount ++ " (uncontested)"⟩,
        addChips gs w1.id pot.amount, ?_, ?_, ?_, ?_, ?_, ?_, ?_, ?_, ?_⟩
      · simp only [distributeSinglePot, hfilter]
      · rfl
      · simp [sumDistributed]
      · intro d1 hd1 d2 hd2
        simp only [List.mem_singleton] at hd1 hd2
        subst hd1
        subst hd2
        omega
      · intro w hw
        obtain rfl : w1 = w := by simpa using hw
        rfl
      · exact h1
      · exact h2
      · exact h3
      · exact h4
    | cons w2 ws =>
      have hself : (w1 :: w2 :: ws).filter (fun p => !p.isFolded) =
          w1 :: w2 :: ws := by
        rw [List.filter_eq_self]
        intro a ha
        rw [← hfilter] at ha
        exact (List.mem_filter.mp ha).2
      have hcont : (w1 :: w2 :: ws).filter (fun p => !p.isFolded) ≠ [] := by
        rw [hself]
        simp
      have hhands2 : ∀ p ∈ (w1 :: w2 :: ws).filter (fun p => !p.isFolded),
          p.hand.length = 2 ∧ (p.hand ++ gs.communityCards).Nodup := by
        intro p hp
        rw [hself, ← hfilter] at hp
        exact hhands p hp
      obtain ⟨winners, hSH, hwne, hwmem⟩ :=
        SHOWDOWN_ok hcc3 hcc5 hcont hhands2
      have hk1 : 1 ≤ winners.length := by
        cases winners with
        | nil => exact absurd rfl hwne
        | cons a b => simp
      have hkpos : (0 : Int) < winners.length := by exact_mod_cast hk1
      have hfd : Int.fdiv pot.amount winners.length =
          pot.amount / winners.length := Int.fdiv_eq_ediv _ (by omega)
      have htm : Int.tmod pot.amount winners.length =
          pot.amount % winners.length := Int.tmod_eq_emod hamt (by omega)
      have hrem0 : 0 ≤ pot.amount % winners.length :=
        Int.emod_nonneg _ (by omega)
      have hremk : pot.amount % winners.length < winners.length :=
        Int.emod_lt_of_pos _ hkpos
      have hdiv : (winners.length : Int) * (pot.amount / winners.length) +
          pot.amount % winners.length = pot.amount := Int.ediv_add_emod _ _
      have hsum := mapWithIndex_share_sum
        (Int.fdiv pot.amount winners.length)
        (Int.tmod pot.amount winners.length) pot.id winners 0
      have hdmem : ∀ d ∈ mapWithIndex
          (fun j r =>
            (⟨r.player.id,
              Int.fdiv pot.amount winners.length +
                (if (j : Int) < Int.tmod pot.amount winners.length then 1
                 else 0), pot.id, some r.evaluation.rank⟩ : PotDistribution))
          0 winners, d.playerId ∈ gs.players.map Player.id := by
        intro d hd
        obtain ⟨j, r, hr, rfl⟩ := mem_mapWithIndex hd
        have := hwmem r hr
        rw [hself, ← hfilter] at this
        exact hids r.player this
      obtain ⟨f1, f2, f3, f4⟩ := foldl_addChips_spec _ gs hdmem
      refine ⟨⟨mapWithIndex
          (fun j r =>
            (⟨r.player.id,
              Int.fdiv pot.amount winners.length +
                (if (j : Int) < Int.tmod pot.amount winners.length then 1
                 else 0), pot.id, some r.evaluation.rank⟩ : PotDistribution))
          0 winners, pot.amount,
          "Pot split between " ++ toString winners.length ++ " player(s)"⟩,
        (mapWithIndex
          (fun j r =>
            (⟨r.player.id,
              Int.fdiv pot.amount winners.length +
                (if (j : Int) < Int.tmod pot.amount winners.length then 1
                 else 0), pot.id, some r.evaluation.rank⟩ : PotDistribution))
          0 winners).foldl (fun g d => addChips g d.playerId d.amount) gs,
        ?_, ?_, ?_, ?_, ?_, ?_, ?_, ?_, ?_⟩
      · simp only [distributeSinglePot, hfilter]
        rw [hSH]
        rfl
      · rfl
      · simp only [sumDistributed]
        rw [hsum, hfd, htm]
        omega
      · intro d1 hd1 d2 hd2
        obtain ⟨j1, r1, hr1, rfl⟩ := mem_mapWithIndex hd1
        obtain ⟨j2, r2, hr2, rfl⟩ := mem_mapWithIndex hd2
        simp only
        split_ifs <;> omega
      · intro w hw
        simp at hw
      · rw [f1]
        simp only [sumDistributed] at *
        rw [hsum, hfd, htm]
        omega
      · exact f2
      · exact f3
      · exact f4

theorem sumDistributed_append (a b : List PotDistribution) :
    sumDistributed (a ++ b) = sumDistributed a + sumDistributed b := by
  simp [sumDistributed]

theorem sumPotAmounts_cons (pot : Pot) (rest : List Pot) :
    sumPotAmounts (pot :: rest) = pot.amount + sumPotAmounts rest := by
  simp [sumPotAmounts]

/-- A pot is distributable from `gs`: nonnegative amount, at least one
eligible non-folded player, and every such player holds 2 hole cards
that do not collide with the board and has a seat in `gs.players`. -/

theorem allPotsLoop_cons (gs : GameState) (pot : Pot) (rest : List Pot)
    (pr : PotResult) (gs2 : GameState) (ds : List PotDistribution)
    (total : Int) (gs3 : GameState)
    (h1 : distributeSinglePot gs pot = .ok (pr, gs2))
    (h2 : distributeAllPotsLoop gs2 rest = .ok (ds, total, gs3)) :
    distributeAllPotsLoop gs (pot :: rest) =
      .ok (pr.distributions ++ ds, pr.totalDistributed + total, gs3) := by
  show (do
      let r ← distributeSinglePot gs pot
      let rs ← distributeAllPotsLoop r.2 rest
      Except.ok (r.1.distributions ++ rs.1, r.1.totalDistributed + rs.2.1,
        rs.2.2)) = _
  rw [h1]
  show (do
      let rs ← distributeAllPotsLoop gs2 rest
      Except.ok (pr.distributions ++ rs.1, pr.totalDistributed + rs.2.1,
        rs.2.2)) = _
  rw [h2]
  rfl

theorem allPotsLoop_spec (pots : List Pot) : ∀ gs : GameState,
    3 ≤ gs.communityCards.length → gs.communityCards.length ≤ 5 →
    (∀ pot ∈ pots, potOK gs pot) →
    ∃ ds total gs2,
      distributeAllPotsLoop gs pots = .ok (ds, total, gs2) ∧
      total = sumPotAmounts pots ∧
      sumDistributed ds = sumPotAmounts pots ∧
      chipsSum gs2.players = chipsSum gs.players + sumPotAmounts pots ∧
      gs2.players.map Player.id = gs.players.map Player.id ∧
      gs2.communityCards = gs.communityCards ∧
      gs2.pot = gs.pot := by
  induction pots with
  | nil =>
    intro gs _ _ _
    exact ⟨[], 0, gs, rfl, by simp [sumPotAmounts],
      by simp [sumDistributed, sumPotAmounts], by simp [sumPotAmounts],
      rfl, rfl, rfl⟩
  | cons pot rest ih =>
    intro gs hcc3 hcc5 H
    obtain ⟨hamt, helig, hpp⟩ := H pot (List.mem_cons_self ..)
    obtain ⟨pr, gs2, heq, htot, hsumd, _, _, hchips, hmap, hccEq, hpotEq⟩ :=
      singlePot_spec gs pot hcc3 hcc5 hamt helig
        (fun p hp => ⟨(hpp p hp).1, (hpp p hp).2.1⟩)
        (fun p hp => (hpp p hp).2.2)
    obtain ⟨ds, total, gs3, heq2, htot2, hsumd2, hchips2, hmap2, hcc2,
        hpot2⟩ :=
      ih gs2 (by rw [hccEq]; exact hcc3) (by rw [hccEq]; exact hcc5)
        (fun q hq => by
          obtain ⟨a, b, c⟩ := H q (List.mem_cons_of_mem _ hq)
          refine ⟨a, b, fun p hp => ?_⟩
          obtain ⟨x, y, z⟩ := c p hp
          rw [hccEq, hmap]
          exact ⟨x, y, z⟩)
    refine ⟨pr.distributions ++ ds, pr.totalDistributed + total, gs3,
      allPotsLoop_cons gs pot rest pr gs2 ds total gs3 heq heq2,
      ?_, ?_, ?_, hmap2.trans hmap, hcc2.trans hccEq, hpot2.trans hpotEq⟩
    · rw [htot, htot2, sumPotAmounts_cons]
    · rw [sumDistributed_append, hsumd, hsumd2, sumPotAmounts_cons]
    · rw [hchips2, hchips, sumPotAmounts_cons]
      omega

/-- C3: over a 3-5 card board, for pots whose eligible non-folded
players have well-formed hole cards and nonnegative amounts,
`distributeAllPots` distributes exactly the pots' total amount in chips
(never more, never fewer), and per pot `distributeSinglePot` awards an
uncontested pot whole to its only eligible non-folded player and splits
a contested pot so any two shares differ by at most 1 chip. A pot with
NO eligible non-folded player silently distributes nothing, so the
claim's "for every list of pots" needs the eligible-player proviso. -/
theorem c3_amended (gs : GameState)
    (hcc3 : 3 ≤ gs.communityCards.length)
    (hcc5 : gs.communityCards.length ≤ 5) :
    (∀ pots : List Pot, (∀ pot ∈ pots, potOK gs pot) →
      ∃ pr gs2, distributeAllPots gs pots = .ok (pr, gs2) ∧
        pr.totalDistributed = sumPotAmounts pots ∧
        sumDistributed pr.distributions = sumPotAmounts pots ∧
        chipsSum gs2.players = chipsSum gs.players + sumPotAmounts pots ∧
        gs2.pot = 0) ∧
    (∀ pot : Pot, potOK gs pot →
      ∃ pr gs2, distributeSinglePot gs pot = .ok (pr, gs2) ∧
        pr.totalDistributed = pot.amount ∧
        sumDistributed pr.distributions = pot.amount ∧
        (∀ d1 ∈ pr.distributions, ∀ d2 ∈ pr.distributions,
          d1.amount - d2.amount ≤ 1) ∧
        (∀ w, pot.eligiblePlayers.filter (fun p => !p.isFolded) = [w] →
          pr.distributions.map (fun d => (d.playerId, d.amount)) =
            [(w.id, pot.amount)])) := by
  constructor
  · intro pots H
    obtain ⟨ds, total, gs2, heq, htot, hsum, hchips, _, _, _⟩ :=
      allPotsLoop_spec pots gs hcc3 hcc5 H
    refine ⟨⟨ds, total,
        "Distributed " ++ toString total ++ " chips across " ++
          toString pots.length ++ " pot(s)"⟩,
      { gs2 with pot := 0 }, ?_, htot, hsum, hchips, rfl⟩
    show (do
        let r ← distributeAllPotsLoop gs pots
        Except.ok
          ((⟨r.1, r.2.1,
              "Distributed " ++ toString r.2.1 ++ " chips across " ++
                toString pots.length ++ " pot(s)"⟩ : PotResult),
            { r.2.2 with pot := 0 })) = _
    rw [heq]
    rfl
  · intro pot hOK
    obtain ⟨hamt, helig, hpp⟩ := hOK
    obtain ⟨pr, gs2, heq, htot, hsum, hle, hsingle, _, _, _, _⟩ :=
      singlePot_spec gs pot hcc3 hcc5 hamt helig
        (fun p hp => ⟨(hpp p hp).1, (hpp p hp).2.1⟩)
        (fun p hp => (hpp p hp).2.2)
    exact ⟨pr, gs2, heq, htot, hsum, hle, hsingle⟩

/-- C3: the claim as stated fails on a pot with no eligible non-folded
player: `distributeAllPots` succeeds but hands out 0 of the 100-chip
pot, leaving every player's chips unchanged. -/
theorem c3_counterexample :
    C3deadPot.amount = 100 ∧
    ∃ pr gs2, distributeAllPots C3gs [C3deadPot] = .ok (pr, gs2) ∧
      pr.totalDistributed = 0 ∧ sumDistributed pr.distributions = 0 ∧
      chipsSum gs2.players = chipsSum C3gs.players :=
  ⟨rfl, _, _, rfl, rfl, rfl, rfl⟩

theorem c3_witness :
    (3 ≤ C3Wgs.communityCards.length ∧ C3Wgs.communityCards.length ≤ 5 ∧
        ∀ pot ∈ [C3WpotMain, C3WpotSide], potOK C3Wgs pot) ∧
      ∃ pr gs2,
        distributeAllPots C3Wgs [C3WpotMain, C3WpotSide] = .ok (pr, gs2) ∧
        pr.totalDistributed = sumPotAmounts [C3WpotMain, C3WpotSide] ∧
        sumDistributed pr.distributions =
          sumPotAmounts [C3WpotMain, C3WpotSide] ∧
        chipsSum gs2.players =
          chipsSum C3Wgs.players + sumPotAmounts [C3WpotMain, C3WpotSide] ∧
        gs2.pot = 0 :=
  ⟨⟨by decide, by decide, by decide⟩,
    (c3_amended C3Wgs (by decide) (by decide)).1
      [C3WpotMain, C3WpotSide] (by decide)⟩

/-! ## Monte Carlo simulation: C9 -/

theorem mem_availableCards {pc cc : List Card} {c : Card} :
    c ∈ availableCards pc cc ↔ c ∈ ALL_CARDS ∧ c ∉ pc ++ cc := by
  simp [availableCards]

theorem dealOpponents_spec :
    ∀ (k : Nat) (deck : List Card), 2 * k ≤ deck.length →
    ∃ hands rest, dealOpponents k deck = some (hands, rest) ∧
      hands.join ++ rest = deck ∧ hands.length = k ∧
      ∀ h ∈ hands, h.length = 2 := by
  intro k
  induction k with
  | zero => exact fun deck _ => ⟨[], deck, rfl, rfl, rfl, by simp⟩
  | succ n ih =>
    intro deck hlen
    cases deck with
    | nil => simp at hlen
    | cons c1 d1 =>
      cases d1 with
      | nil => simp at hlen; omega
      | cons c2 deck2 =>
        obtain ⟨hands, rest, h1, h2, h3, h4⟩ := ih deck2 (by
          simp only [List.length_cons] at hlen
          omega)
        refine ⟨[c1, c2] :: hands, rest, ?_, ?_, ?_, ?_⟩
        · simp only [dealOpponents, h1]
          rfl
        · simp [h2]
        · simp [h3]
        · intro h hh
          rcases List.mem_cons.mp hh with rfl | hh
          · rfl
          · exact h4 h hh

theorem mapM_option_ok {α β : Type} (f : α → Option β) :
    ∀ l : List α, (∀ a ∈ l, ∃ b, f a = some b) →
    ∃ bs, l.mapM f = some bs ∧ bs.length = l.length := by
  intro l
  induction l with
  | nil => exact fun _ => ⟨[], by rw [List.mapM_nil]; rfl, rfl⟩
  | cons a l ih =>
    intro h
    obtain ⟨b, hb⟩ := h a (List.mem_cons_self ..)
    obtain ⟨bs, hbs, hlen⟩ := ih (fun x hx => h x (List.mem_cons_of_mem _ hx))
    refine ⟨b :: bs, ?_, by simp [hlen]⟩
    rw [List.mapM_cons, hb, hbs]
    rfl

theorem runSingle_ok (playerCards communityCards s : List Card)
    (numOpponents : Int)
    (hpc : playerCards.length = 2)
    (hcc3 : 3 ≤ communityCards.length) (hcc5 : communityCards.length ≤ 5)
    (hnd : (playerCards ++ communityCards).Nodup)
    (hn : 1 ≤ numOpponents)
    (hperm : s.Perm (availableCards playerCards communityCards))
    (hsupply : 5 - communityCards.length + 2 * numOpponents.toNat ≤
      (availableCards playerCards communityCards).length) :
    ∃ t, runSingleSimulation playerCards communityCards s numOpponents =
      some t := by
  have hslen : s.length =
      (availableCards playerCards communityCards).length := hperm.length_eq
  have hAvNodup : (availableCards playerCards communityCards).Nodup := by
    have hall : ALL_CARDS.Nodup := by decide
    exact hall.filter _
  have hsnd : s.Nodup := hperm.symm.nodup hAvNodup
  have hsmem : ∀ c ∈ s, c ∉ playerCards ++ communityCards := by
    intro c hc
    exact (mem_availableCards.mp (hperm.mem_iff.mp hc)).2
  have hpad : padCommunity communityCards s =
      some (communityCards ++ s.take (5 - communityCards.length),
        s.drop (5 - communityCards.length)) := by
    simp only [padCommunity]
    rw [if_neg (by omega)]
  have hdlen : 2 * numOpponents.toNat ≤
      (s.drop (5 - communityCards.length)).length := by
    rw [List.length_drop]
    omega
  obtain ⟨hands, rest, hdeal, hjoin, hhlen, hh2⟩ :=
    dealOpponents_spec numOpponents.toNat
      (s.drop (5 - communityCards.length)) hdlen
  have hnd_pc := (List.nodup_append.mp hnd).1
  have hnd_cc := (List.nodup_append.mp hnd).2.1
  have hdisj := (List.nodup_append.mp hnd).2.2
  have htake_nd : (s.take (5 - communityCards.length)).Nodup :=
    List.Nodup.sublist (List.take_sublist _ _) hsnd
  have hdrop_nd : (s.drop (5 - communityCards.length)).Nodup :=
    List.Nodup.sublist (List.drop_sublist _ _) hsnd
  have htake_mem : ∀ c ∈ s.take (5 - communityCards.length),
      c ∉ playerCards ++ communityCards :=
    fun c hc => hsmem c ((List.take_sublist _ _).subset hc)
  have hfcnd :
      (communityCards ++ s.take (5 - communityCards.length)).Nodup := by
    rw [List.nodup_append]
    exact ⟨hnd_cc, htake_nd, fun a ha hat =>
      htake_mem a hat (List.mem_append.mpr (Or.inr ha))⟩
  have hfclen :
      (communityCards ++ s.take (5 - communityCards.length)).length = 5 := by
    rw [List.length_append, List.length_take]
    omega
  have hpnodup : (playerCards ++
      (communityCards ++ s.take (5 - communityCards.length))).Nodup := by
    rw [List.nodup_append]
    refine ⟨hnd_pc, hfcnd, ?_⟩
    intro a ha hmem
    rcases List.mem_append.mp hmem with h | h
    · exact hdisj ha h
    · exact htake_mem a h (List.mem_append.mpr (Or.inl ha))
  obtain ⟨e, he⟩ := @evaluateBestHand_ok
    (playerCards ++
      (communityCards ++ s.take (5 - communityCards.length)))
    (by rw [List.length_append, hpc, hfclen]; try omega)
    (by rw [List.length_append, hpc, hfclen]; try omega) hpnodup
  have hpe : (evaluateBestHand (playerCards ++
      (communityCards ++ s.take (5 - communityCards.length)))).toOption =
      some e := by rw [he]; rfl
  have hocok : ∀ oc ∈ hands, ∃ b,
      (evaluateBestHand (oc ++
        (communityCards ++ s.take (5 - communityCards.length)))).toOption =
        some b := by
    intro oc hoc
    have hocsub : oc.Sublist (s.drop (5 - communityCards.length)) := by
      have h1 : oc.Sublist hands.join := List.sublist_join_of_mem hoc
      have h2 : hands.join.Sublist (hands.join ++ rest) :=
        List.sublist_append_left _ _
      rw [hjoin] at h2
      exact h1.trans h2
    have hocnd : oc.Nodup := List.Nodup.sublist hocsub hdrop_nd
    have hocmem : ∀ c ∈ oc, c ∈ s.drop (5 - communityCards.length) :=
      fun c hc => hocsub.subset hc
    have hnodup : (oc ++
        (communityCards ++ s.take (5 - communityCards.length))).Nodup := by
      rw [List.nodup_append]
      refine ⟨hocnd, hfcnd, ?_⟩
      intro a ha hmem
      have has : a ∈ s := (List.drop_sublist _ _).subset (hocmem a ha)
      rcases List.mem_append.mp hmem with h | h
      · exact hsmem a has (List.mem_append.mpr (Or.inr h))
      · exact List.disjoint_take_drop hsnd le_rfl h (hocmem a ha)
    obtain ⟨b, hb⟩ := @evaluateBestHand_ok
      (oc ++
        (communityCards ++ s.take (5 - communityCards.length)))
      (by rw [List.length_append, hh2 oc hoc, hfclen]; try omega)
      (by rw [List.length_append, hh2 oc hoc, hfclen]; try omega) hnodup
    exact ⟨b, by rw [hb]; rfl⟩
  obtain ⟨bs, hbs, hbslen⟩ := mapM_option_ok
    (fun oc => (evaluateBestHand (oc ++
      (communityCards ++ s.take (5 - communityCards.length)))).toOption)
    hands hocok
  have hn0 : (0 : Int) ≤ numOpponents := by omega
  have hbs1 : 1 ≤ bs.length := by
    rw [hbslen, hhlen]
    exact (Int.le_toNat hn0).mpr (by exact_mod_cast hn)
  cases bs with
  | nil => simp at hbs1
  | cons b0 brest =>
    refine ⟨⟨decide (compareHands e (brest.foldl
        (fun b x => if compareHands x b > 0 then x else b) b0) > 0),
      compareHands e (brest.foldl
        (fun b x => if compareHands x b > 0 then x else b) b0) == 0,
      e, brest.foldl (fun b x => if compareHands x b > 0 then x else b) b0⟩,
      ?_⟩
    simp only [runSingleSimulation, hpad, hdeal, hpe, hbs,
      Option.bind_eq_bind, Option.some_bind, List.head?_cons,
      List.drop_one, List.tail_cons]

theorem runTrials_ok (shuffleFn : Nat → List Card)
    (pc cc : List Card) (n : Int)
    (hok : ∀ s, s.Perm (availableCards pc cc) →
      ∃ t, runSingleSimulation pc cc s n = some t)
    (hperm : ∀ i, (shuffleFn i).Perm (availableCards pc cc)) :
    ∀ k i, ∃ ts, runTrials shuffleFn pc cc n i k = some ts := by
  intro k
  induction k with
  | zero => exact fun i => ⟨[], rfl⟩
  | succ m ih =>
    intro i
    obtain ⟨t, ht⟩ := hok (shuffleFn i) (hperm i)
    obtain ⟨ts, hts⟩ := ih (i + 1)
    refine ⟨t :: ts, ?_⟩
    simp only [runTrials, ht, hts, Option.bind_eq_bind, Option.some_bind]

/-- C9: `runSimulation` raises a validation error exactly when the
card counts are wrong — `numOpponents` is never validated; and it
succeeds when additionally the cards are distinct, `numOpponents ≥ 1`
and each shuffled deck is a permutation of the unseen cards with
enough cards to pad the board and deal every opponent.  The claim's
"including numOpponents = 0" is dropped: zero opponents makes every
trial fail (see the counterexample). -/
theorem c9_amended (shuffleFn : Nat → List Card)
    (playerCards communityCards : List Card) (numOpponents : Int) :
    ((∃ msg, runSimulation shuffleFn playerCards communityCards
        numOpponents = .error (.validationError msg)) ↔
      (playerCards.length ≠ 2 ∨ communityCards.length < 3 ∨
        communityCards.length > 5)) ∧
    (playerCards.length = 2 → 3 ≤ communityCards.length →
      communityCards.length ≤ 5 →
      (playerCards ++ communityCards).Nodup → 1 ≤ numOpponents →
      (∀ i, (shuffleFn i).Perm
        (availableCards playerCards communityCards)) →
      5 - communityCards.length + 2 * numOpponents.toNat ≤
        (availableCards playerCards communityCards).length →
      ∃ r, runSimulation shuffleFn playerCards communityCards
        numOpponents = .ok r) := by
  constructor
  · constructor
    · rintro ⟨msg, hmsg⟩
      by_contra hno
      push_neg at hno
      obtain ⟨h2, h3, h5⟩ := hno
      simp only [runSimulation] at hmsg
      rw [if_neg (by omega), if_neg (by omega)] at hmsg
      cases hrt : runTrials shuffleFn playerCards communityCards
          numOpponents 0 SIMULATION_COUNT with
      | none => rw [hrt] at hmsg; simp at hmsg
      | some rs => rw [hrt] at hmsg; simp at hmsg
    · intro h
      by_cases h2 : playerCards.length ≠ 2
      · refine ⟨"Player must have exactly 2 hole cards", ?_⟩
        simp only [runSimulation]
        rw [if_pos h2]
      · have h35 : communityCards.length < 3 ∨ communityCards.length > 5 := by
          rcases h with h | h | h
          · exact absurd h h2
          · exact Or.inl h
          · exact Or.inr h
        refine ⟨"Community cards must be between 3 and 5 cards", ?_⟩
        simp only [runSimulation]
        rw [if_neg h2, if_pos h35]
  · intro hpc hcc3 hcc5 hnd hn hperm hsupply
    have hok : ∀ s, s.Perm (availableCards playerCards communityCards) →
        ∃ t, runSingleSimulation playerCards communityCards s
          numOpponents = some t :=
      fun s hs => runSingle_ok playerCards communityCards s numOpponents
        hpc hcc3 hcc5 hnd hn hs hsupply
    obtain ⟨ts, hts⟩ := runTrials_ok shuffleFn playerCards communityCards
      numOpponents hok hperm SIMULATION_COUNT 0
    refine ⟨aggregateTrials ts, ?_⟩
    simp only [runSimulation]
    rw [if_neg (by omega), if_neg (by omega), hts]

/-- C9: a 2-card hand with a 3-card board and `numOpponents = 0`
satisfies the claim's stated contract, yet `runSimulation` fails: with
no opponents, `opponentEvaluations[0]` does not exist and every trial
aborts, so the result is the trial error, not a prediction. -/
theorem c9_counterexample :
    C9pc.length = 2 ∧ C9cc.length = 3 ∧
    runSimulation (fun _ => availableCards C9pc C9cc) C9pc C9cc 0 =
      .error .trialError := by
  refine ⟨rfl, rfl, ?_⟩
  decide

theorem c9_witness :
    (C9pc.length = 2 ∧ 3 ≤ C9cc.length ∧ C9cc.length ≤ 5 ∧
        (C9pc ++ C9cc).Nodup ∧ (1 : Int) ≤ 1 ∧
        5 - C9cc.length + 2 * (1 : Int).toNat ≤
          (availableCards C9pc C9cc).length) ∧
      ∃ r, runSimulation (fun _ => availableCards C9pc C9cc) C9pc C9cc 1 =
        .ok r :=
  ⟨⟨rfl, by decide, by decide, by decide, by decide, by decide⟩,
    (c9_amended (fun _ => availableCards C9pc C9cc) C9pc C9cc 1).2
      (by decide) (by decide) (by decide) (by decide) (by decide)
      (fun i => List.Perm.refl _) (by decide)⟩
